import Mathlib

/-!
# MelonRipper: capture state machine and binary encoder

A shallow embedding of `src/MelonRipper.cpp` and `src/MelonRipper.h`.

* `std::vector<u8>` is a `List Nat` whose entries are byte values.
* Unsigned machine words are `Nat`; a conversion to a narrower or unsigned
  type is an explicit `% 2 ^ w`.
* `int RequestCount` is an `Int` kept in the range of a 32-bit `int`: the addition
  in `RequestRip` and the decrement in `NotifyFlush` wrap modulo `2 ^ 32`,
  which is what the compiled code does where the C++ standard leaves signed
  overflow undefined.
* The host state read at a display event (`NDS.GPU`) and the outcome of the file
  operations are passed in explicitly.
* Characters of the cartridge title are their codes; the title returned by
  `GetGameTitleForFilename` is the string in the buffer, without its terminator.
-/

namespace melonDS

/-- The byte vector `std::vector<u8>` (`using VecU8 = std::vector<u8>`). -/
abbrev VecU8 := List Nat

/-- A value in the range of the 32-bit type `int`. -/
def isInt (x : Int) : Prop := -2 ^ 31 ≤ x ∧ x < 2 ^ 31

instance : DecidablePred isInt := fun x => by unfold isInt; infer_instance

/-- The result of an `int` operation whose exact value is `x`: the value of the
same residue modulo `2 ^ 32` in the range of `int`. -/
def wrapInt (x : Int) : Int := (x + 2 ^ 31) % 2 ^ 32 - 2 ^ 31

/-- Conversion of a signed value to `u32`: the value modulo `2 ^ 32`. -/
def toU32 (x : Int) : Nat := (x % 2 ^ 32).toNat

/-- Conversion of a signed value to `u16`: the value modulo `2 ^ 16`. -/
def toU16 (x : Int) : Nat := (x % 2 ^ 16).toNat

/-- Conversion of a `char` of a string literal to `u8`. -/
def charToU8 (c : Char) : Nat := c.toNat % 256

/-- Modelled from the spec: `Vertex` is declared in `GPU3D.h`, which is not part of
the sources at hand.  Only the members read by `WritePolygon` are kept: three
32-bit signed position components, three 32-bit signed colour components and
two 16-bit signed texture coordinates (`WorldPosition[0..2]`, `Color[0..2]`,
`TexCoords[0..1]`). -/
structure Vertex where
  WorldPosition0 : Int
  WorldPosition1 : Int
  WorldPosition2 : Int
  Color0 : Int
  Color1 : Int
  Color2 : Int
  TexCoords0 : Int
  TexCoords1 : Int
  deriving DecidableEq, Repr, Inhabited

/-- Modelled from the spec: `GPU3D` is declared in `GPU3D.h`, which is not part of
the sources at hand.  `RenderDispCnt` is the 32-bit display-control word and
`RenderToonTable` the table of 32 16-bit colour-ramp entries, read by index. -/
structure GPU3D where
  RenderDispCnt : Nat
  RenderToonTable : Nat → Nat

/-- Modelled from the spec: `GPU` is declared in `GPU.h`, which is not part of the
sources at hand.  The mapping tables hold 4 and 8 32-bit entries; the banks are
byte arrays (A to D of 128 KiB, E of 64 KiB, F and G of 16 KiB).  Every array is
read by index. -/
structure GPU where
  VRAMMap_Texture : Nat → Nat
  VRAMMap_TexPal : Nat → Nat
  VRAM_A : Nat → Nat
  VRAM_B : Nat → Nat
  VRAM_C : Nat → Nat
  VRAM_D : Nat → Nat
  VRAM_E : Nat → Nat
  VRAM_F : Nat → Nat
  VRAM_G : Nat → Nat
  GPU3D : GPU3D

/-- Modelled from the spec: `NDS` is declared in `NDS.h`, which is not part of the
sources at hand.  It carries the GPU and the cartridge slot; `GetCart` is null
(`none`) when no cartridge is inserted, otherwise the 12 `char` values of the
header field `GameTitle`, read by index. -/
structure NDS where
  GPU : GPU
  NDSCartSlot : Option (Nat → Nat)

/-- The host at a display event: the emulator state `NDS` read by
`FinishFrontRip`, and whether `fopen` and `fwrite` succeed inside
`SaveFrontRipToFile`. -/
structure Host where
  NDS : NDS
  fopenOk : Bool
  fwriteOk : Bool

/-! ## Encoders (the static functions of `MelonRipper.cpp`) -/

/-- The array `const char magic[24] = "melon ripper v2"`: the characters of the
literal, zero-filled up to 24 entries. -/
def magic : List Nat :=
  let s := "melon ripper v2".toList.map charToU8
  s ++ List.replicate (24 - s.length) 0

/-- The function `WriteMagic`: `rip.insert(rip.begin(), ...)` puts the 24 bytes of
`magic` in front of the rip. -/
def WriteMagic (rip : VecU8) : VecU8 := magic ++ rip

/-- The function `WriteOpcode`: `rip.insert(rip.end(), op, op + 4)` appends the
four characters `op[0..3]`. -/
def WriteOpcode (rip : VecU8) (op : String) : VecU8 :=
  rip ++ (op.toList.take 4).map charToU8

/-- The function `WriteU16`: push `x & 0xFF`, then `x >> 8`, each converted to
`u8` by `push_back`. -/
def WriteU16 (rip : VecU8) (x : Nat) : VecU8 :=
  (rip ++ [(x &&& 0xFF) % 256]) ++ [(x >>> 8) % 256]

/-- The function `WriteU32`: push `(x >> 0) & 0xFF`, `(x >> 8) & 0xFF`,
`(x >> 16) & 0xFF` and `(x >> 24) & 0xFF`, in this order. -/
def WriteU32 (rip : VecU8) (x : Nat) : VecU8 :=
  (((rip ++ [((x >>> 0) &&& 0xFF) % 256]) ++ [((x >>> 8) &&& 0xFF) % 256])
    ++ [((x >>> 16) &&& 0xFF) % 256]) ++ [((x >>> 24) &&& 0xFF) % 256]

/-- The loop `for (int i = 0; i != n; ++i) body(i)` acting on the rip. -/
def forLoop (n : Nat) (body : VecU8 → Nat → VecU8) (rip : VecU8) : VecU8 :=
  (List.range n).foldl body rip

/-- The body of the loop of `WritePolygon` for the vertex `v = verts[i]`. -/
def WriteVertex (rip : VecU8) (v : Vertex) : VecU8 :=
  let rip := WriteU32 rip (toU32 v.WorldPosition0)
  let rip := WriteU32 rip (toU32 v.WorldPosition1)
  let rip := WriteU32 rip (toU32 v.WorldPosition2)
  let rip := WriteU32 rip (toU32 v.Color0)
  let rip := WriteU32 rip (toU32 v.Color1)
  let rip := WriteU32 rip (toU32 v.Color2)
  let rip := WriteU16 rip (toU16 v.TexCoords0)
  WriteU16 rip (toU16 v.TexCoords1)

/-- The function `WritePolygon`: the opcode `"TRI "` when `nverts == 3` and `"QUAD"` otherwise,
then the vertices `verts[0]` to `verts[nverts - 1]`.  The array argument is the
list of its elements; callers pass `nverts` equal to 3 or 4. -/
def WritePolygon (rip : VecU8) (verts : List Vertex) (nverts : Nat) : VecU8 :=
  let rip := WriteOpcode rip (if nverts = 3 then "TRI " else "QUAD")
  forLoop nverts (fun rip i => WriteVertex rip (verts.getD i default)) rip

/-- The function `WriteTexParam`: opcode `TPRM`, then the word. -/
def WriteTexParam (rip : VecU8) (tex_param : Nat) : VecU8 :=
  WriteU32 (WriteOpcode rip "TPRM") tex_param

/-- The function `WriteTexPalette`: opcode `TPLT`, then the word. -/
def WriteTexPalette (rip : VecU8) (tex_pal : Nat) : VecU8 :=
  WriteU32 (WriteOpcode rip "TPLT") tex_pal

/-- The function `WritePolygonAttr`: opcode `PATR`, then the word. -/
def WritePolygonAttr (rip : VecU8) (attr : Nat) : VecU8 :=
  WriteU32 (WriteOpcode rip "PATR") attr

/-- The lambda `DumpBank` of `WriteVRAM`: append `bank[0 .. nkb * 1024)`. -/
def DumpBank (rip : VecU8) (bank : Nat → Nat) (nkb : Nat) : VecU8 :=
  rip ++ (List.range (nkb * 1024)).map bank

/-- The function `WriteVRAM`: opcode `VRAM`, the entries 0 to 3 of
`VRAMMap_Texture`, the entries 0 to 7 of `VRAMMap_TexPal`, then the banks A, B, C,
D (128 KiB each), E (64 KiB), F and G (16 KiB each). -/
def WriteVRAM (rip : VecU8) (GPU : GPU) : VecU8 :=
  let rip := WriteOpcode rip "VRAM"
  let rip := forLoop 4 (fun rip i => WriteU32 rip (GPU.VRAMMap_Texture i)) rip
  let rip := forLoop 8 (fun rip i => WriteU32 rip (GPU.VRAMMap_TexPal i)) rip
  let rip := DumpBank rip GPU.VRAM_A 128
  let rip := DumpBank rip GPU.VRAM_B 128
  let rip := DumpBank rip GPU.VRAM_C 128
  let rip := DumpBank rip GPU.VRAM_D 128
  let rip := DumpBank rip GPU.VRAM_E 64
  let rip := DumpBank rip GPU.VRAM_F 16
  DumpBank rip GPU.VRAM_G 16

/-- The function `WriteDispCnt`: opcode `DISP`, then the word. -/
def WriteDispCnt (rip : VecU8) (disp_cnt : Nat) : VecU8 :=
  WriteU32 (WriteOpcode rip "DISP") disp_cnt

/-- The function `WriteToonTable`: opcode `TOON`, then the entries 0 to 31 as
16-bit values. -/
def WriteToonTable (rip : VecU8) (toon_table : Nat → Nat) : VecU8 :=
  let rip := WriteOpcode rip "TOON"
  forLoop 32 (fun rip i => WriteU16 rip (toon_table i)) rip

/-! ## The capture controller (`class MelonRipper`) -/

/-- The data members of `class MelonRipper` with their default member
initialisers (`RequestCount = 0`, `DumpPolys = false`, two empty vectors). -/
structure MelonRipper where
  RequestCount : Int := 0
  DumpPolys : Bool := false
  BackRip : VecU8 := []
  FrontRip : VecU8 := []
  deriving DecidableEq, Repr

namespace MelonRipper

/-- A freshly constructed controller. -/
def fresh : MelonRipper := {}

/-- The member `Reset`: the counter to 0, the flag to false, both rips cleared. -/
def Reset (_s : MelonRipper) : MelonRipper :=
  { RequestCount := 0, DumpPolys := false, BackRip := [], FrontRip := [] }

/-- The member `RequestRip(int count = 1)`: `RequestCount += count`, an addition
of two values of type `int`.  The default argument is written out by the
caller. -/
def RequestRip (s : MelonRipper) (count : Int) : MelonRipper :=
  { s with RequestCount := wrapInt (s.RequestCount + count) }

/-- The member `IsDumping`: the flag `DumpPolys`. -/
def IsDumping (s : MelonRipper) : Bool := s.DumpPolys

/-- The member `Polygon`: `WritePolygon` on `BackRip`, with no test of `DumpPolys`. -/
def Polygon (s : MelonRipper) (verts : List Vertex) (nverts : Nat) : MelonRipper :=
  { s with BackRip := WritePolygon s.BackRip verts nverts }

/-- The member `TexParam`: `WriteTexParam` on `BackRip`, with no test of `DumpPolys`. -/
def TexParam (s : MelonRipper) (tex_param : Nat) : MelonRipper :=
  { s with BackRip := WriteTexParam s.BackRip tex_param }

/-- The member `TexPalette`: `WriteTexPalette` on `BackRip`, with no test of
`DumpPolys`. -/
def TexPalette (s : MelonRipper) (tex_pal : Nat) : MelonRipper :=
  { s with BackRip := WriteTexPalette s.BackRip tex_pal }

/-- The member `PolygonAttr`: `WritePolygonAttr` on `BackRip`, with no test of
`DumpPolys`. -/
def PolygonAttr (s : MelonRipper) (attr : Nat) : MelonRipper :=
  { s with BackRip := WritePolygonAttr s.BackRip attr }

/-- The member `InitBackRip`: clear, reserve (no effect on the contents), write the
magic. -/
def InitBackRip (s : MelonRipper) : MelonRipper :=
  let s := { s with BackRip := [] }
  { s with BackRip := WriteMagic s.BackRip }

/-- The member `NotifyFlush`: when `DumpPolys` is set, swap the two rips, clear
`BackRip` and decrement `RequestCount` (`RequestCount--` on an `int`); then clear
`DumpPolys`; then, when `RequestCount > 0`, call `InitBackRip` and set
`DumpPolys`. -/
def NotifyFlush (s : MelonRipper) : MelonRipper :=
  let s :=
    if s.DumpPolys then
      let s := { s with BackRip := s.FrontRip, FrontRip := s.BackRip }
      let s := { s with BackRip := [] }
      { s with RequestCount := wrapInt (s.RequestCount - 1) }
    else s
  let s := { s with DumpPolys := false }
  if s.RequestCount > 0 then
    let s := InitBackRip s
    { s with DumpPolys := true }
  else s

/-- The member `FinishFrontRip`, reading the host state `NDS`: `WriteVRAM`,
`WriteDispCnt` and `WriteToonTable` on `FrontRip`. -/
def FinishFrontRip (s : MelonRipper) (NDS : NDS) : MelonRipper :=
  let s := { s with FrontRip := WriteVRAM s.FrontRip NDS.GPU }
  let s := { s with FrontRip := WriteDispCnt s.FrontRip NDS.GPU.GPU3D.RenderDispCnt }
  { s with FrontRip := WriteToonTable s.FrontRip NDS.GPU.GPU3D.RenderToonTable }

end MelonRipper

/-- What one call of `SaveFrontRipToFile` does: the bytes `FrontRip.data()` of
length `FrontRip.size()` it is called on, and the flag `ok` it computes. -/
structure Emission where
  bytes : VecU8
  ok : Bool
  deriving DecidableEq, Repr

namespace MelonRipper

/-- The member `SaveFrontRipToFile` (a `const` member): `ok` is set when `fopen`
returns a file and `fwrite` of one item of `FrontRip.size()` bytes returns 1,
which it cannot do for an item of size zero.  The file name (title and time
stamp) is not part of the record. -/
def SaveFrontRipToFile (s : MelonRipper) (fopenOk fwriteOk : Bool) : Emission :=
  { bytes := s.FrontRip
    ok := fopenOk && (fwriteOk && !s.FrontRip.isEmpty) }

/-- The member `NotifyRender`: when `FrontRip` is not empty, `FinishFrontRip`,
`SaveFrontRipToFile`, then `FrontRip.clear()`.  The result is the new controller
and the calls of `SaveFrontRipToFile` made (none or one). -/
def NotifyRender (s : MelonRipper) (E : Host) : MelonRipper × List Emission :=
  if !s.FrontRip.isEmpty then
    let s := FinishFrontRip s E.NDS
    let e := SaveFrontRipToFile s E.fopenOk E.fwriteOk
    ({ s with FrontRip := [] }, [e])
  else (s, [])

end MelonRipper

/-! ## The file name -/

/-- The function `ConvertToFilenameChar`, on character codes: a digit (`0` is 48,
`9` is 57) or a lowercase letter (`a` is 97, `z` is 122) is returned as it is, an
uppercase letter (`A` is 65, `Z` is 90) as `c - 65 + 97`, anything else as 0.  A
`char` beyond 127 fails the three tests whether `char` is signed or not. -/
def ConvertToFilenameChar (c : Nat) : Nat :=
  if (48 ≤ c ∧ c ≤ 57) ∨ (97 ≤ c ∧ c ≤ 122) then c
  else if 65 ≤ c ∧ c ≤ 90 then c - 65 + 97
  else 0

/-- The function `GetGameTitleForFilename`: the string left in `title[13]`.  The
local `title` is the part of the buffer before the terminating zero; with a
cartridge the loop over `GameTitle[0..11]` stores every converted character that
is not zero; `title[0] == 0` then selects the default name `melonrip`. -/
def GetGameTitleForFilename (NDS : NDS) : List Nat :=
  let title : List Nat :=
    match NDS.NDSCartSlot with
    | none => []
    | some GameTitle =>
      forLoop 12 (fun title i =>
        let c := ConvertToFilenameChar (GameTitle i)
        if c ≠ 0 then title ++ [c] else title) []
  if (title ++ [0]).headD 0 = 0 then "melonrip".toList.map charToU8 else title

/-! ## Commands, operations and runs -/

/-- The four render commands submitted to the back buffer, with the arguments
of the calls `Polygon(verts, nverts)`, `TexParam(x)`, `TexPalette(x)` and
`PolygonAttr(x)`. -/
inductive Command where
  | Polygon (verts : List Vertex) (nverts : Nat)
  | TexParam (tex_param : Nat)
  | TexPalette (tex_pal : Nat)
  | PolygonAttr (attr : Nat)
  deriving DecidableEq, Repr

/-- A well-formed command: a polygon has 3 or 4 vertices, all present in the
array handed over. -/
def Command.Valid : Command → Prop
  | .Polygon verts nverts => (nverts = 3 ∨ nverts = 4) ∧ nverts ≤ verts.length
  | _ => True

instance : DecidablePred Command.Valid := fun c => by
  cases c <;> unfold Command.Valid <;> infer_instance

/-- The public operations of the controller. -/
inductive Op where
  | RequestRip (count : Int)
  | Command (c : Command)
  | NotifyFlush
  | NotifyRender (E : Host)
  | Reset

/-- An operation whose requested count, if it is a `RequestRip`, is not
negative. -/
def Op.countNonneg : Op → Prop
  | .RequestRip count => 0 ≤ count
  | _ => True

instance : DecidablePred Op.countNonneg := fun op => by
  cases op <;> unfold Op.countNonneg <;> infer_instance

/-- An operation that is a `RequestRip` or a well-formed command. -/
def Op.isCommandOrRequest : Op → Prop
  | .RequestRip _ => True
  | .Command c => c.Valid
  | _ => False

instance : DecidablePred Op.isCommandOrRequest := fun op => by
  cases op <;> unfold Op.isCommandOrRequest <;> infer_instance

/-- Whether an operation is `Reset`. -/
def Op.isReset : Op → Bool
  | .Reset => true
  | _ => false

namespace MelonRipper

/-- One command operation: the call of the member function of that name. -/
def command (s : MelonRipper) : Command → MelonRipper
  | .Polygon verts nverts => s.Polygon verts nverts
  | .TexParam tex_param => s.TexParam tex_param
  | .TexPalette tex_pal => s.TexPalette tex_pal
  | .PolygonAttr attr => s.PolygonAttr attr

/-- The commands of a list, in order. -/
def commands (s : MelonRipper) (cmds : List Command) : MelonRipper :=
  cmds.foldl command s

/-- One public operation: the new controller and the calls of
`SaveFrontRipToFile` it made. -/
def step (s : MelonRipper) : Op → MelonRipper × List Emission
  | .RequestRip count => (s.RequestRip count, [])
  | .Command c => (s.command c, [])
  | .NotifyFlush => (s.NotifyFlush, [])
  | .NotifyRender E => s.NotifyRender E
  | .Reset => (s.Reset, [])

/-- A sequence of public operations: the final controller and all calls of
`SaveFrontRipToFile`, oldest first. -/
def run (s : MelonRipper) : List Op → MelonRipper × List Emission
  | [] => (s, [])
  | op :: ops =>
    let r1 := s.step op
    let r2 := run r1.1 ops
    (r2.1, r1.2 ++ r2.2)

/-- The byte sequences handed to `SaveFrontRipToFile` during a run. -/
def emitted (s : MelonRipper) (ops : List Op) : List VecU8 :=
  (s.run ops).2.map Emission.bytes

/-- The sum of the counts of the `RequestRip` calls of a sequence. -/
def requested : List Op → Int
  | [] => 0
  | .RequestRip count :: ops => count + requested ops
  | _ :: ops => requested ops

/-- The number of `NotifyFlush` calls of a sequence made while `DumpPolys` is
set, the sequence starting in state `s`. -/
def swapsWhileRecording (s : MelonRipper) : List Op → Nat
  | [] => 0
  | .NotifyFlush :: ops =>
    (if s.DumpPolys then 1 else 0) + swapsWhileRecording s.NotifyFlush ops
  | op :: ops => swapsWhileRecording (s.step op).1 ops

/-- Whether no `int` operation of a run overflows, the run starting in state `s`:
every `RequestRip` is given a value of type `int` and its addition stays in the
range of `int`, and so does every decrement made by `NotifyFlush`. -/
def noOverflow (s : MelonRipper) : List Op → Bool
  | [] => true
  | .RequestRip count :: ops =>
    (decide (isInt count) && decide (isInt (s.RequestCount + count)))
      && noOverflow (s.RequestRip count) ops
  | .NotifyFlush :: ops =>
    (!s.DumpPolys || decide (isInt (s.RequestCount - 1))) && noOverflow s.NotifyFlush ops
  | op :: ops => noOverflow (s.step op).1 ops

end MelonRipper

/-! ## The artifact layout, as the format description words it -/

namespace Layout

/-- The 24-byte header: the ASCII codes of `melon ripper v2`, then nine zero
bytes. -/
def header : List Nat :=
  [109, 101, 108, 111, 110, 32, 114, 105, 112, 112, 101, 114, 32, 118, 50,
   0, 0, 0, 0, 0, 0, 0, 0, 0]

/-- A 16-bit value in little-endian order. -/
def le16 (x : Nat) : List Nat := [x % 256, x / 2 ^ 8 % 256]

/-- A 32-bit value in little-endian order. -/
def le32 (x : Nat) : List Nat :=
  [x % 256, x / 2 ^ 8 % 256, x / 2 ^ 16 % 256, x / 2 ^ 24 % 256]

/-- The ASCII codes of the tags. -/
def tagTRI : List Nat := [84, 82, 73, 32]

/-- The tag `QUAD`. -/
def tagQUAD : List Nat := [81, 85, 65, 68]

/-- The tag `TPRM`. -/
def tagTPRM : List Nat := [84, 80, 82, 77]

/-- The tag `TPLT`. -/
def tagTPLT : List Nat := [84, 80, 76, 84]

/-- The tag `PATR`. -/
def tagPATR : List Nat := [80, 65, 84, 82]

/-- The tag `VRAM`. -/
def tagVRAM : List Nat := [86, 82, 65, 77]

/-- The tag `DISP`. -/
def tagDISP : List Nat := [68, 73, 83, 80]

/-- The tag `TOON`. -/
def tagTOON : List Nat := [84, 79, 79, 78]

/-- One vertex: three 32-bit position components, three 32-bit colour
components, two 16-bit texture coordinates, signed values taken modulo `2 ^ 32`
and `2 ^ 16`. -/
def vertex (v : Vertex) : List Nat :=
  le32 (toU32 v.WorldPosition0) ++ le32 (toU32 v.WorldPosition1)
    ++ le32 (toU32 v.WorldPosition2)
    ++ le32 (toU32 v.Color0) ++ le32 (toU32 v.Color1) ++ le32 (toU32 v.Color2)
    ++ le16 (toU16 v.TexCoords0) ++ le16 (toU16 v.TexCoords1)

/-- The entries `a[0]`, ..., `a[n - 1]` of a table, each encoded by `enc`. -/
def table (n : Nat) (enc : Nat → List Nat) (a : Nat → Nat) : List Nat :=
  ((List.range n).map (fun i => enc (a i))).flatten

/-- The raw contents of a bank of `n` bytes. -/
def bank (n : Nat) (a : Nat → Nat) : List Nat := (List.range n).map a

/-- The record of one command: a 4-byte tag, then the payload. -/
def record : Command → List Nat
  | .Polygon verts nverts =>
    (if nverts = 3 then tagTRI else tagQUAD)
      ++ ((List.range nverts).map (fun i => vertex (verts.getD i default))).flatten
  | .TexParam tex_param => tagTPRM ++ le32 tex_param
  | .TexPalette tex_pal => tagTPLT ++ le32 tex_pal
  | .PolygonAttr attr => tagPATR ++ le32 attr

/-- A `TRI ` record: the tag and the vertices 0, 1, 2 of the array. -/
def triRecord (t : List Vertex) : List Nat :=
  tagTRI ++ vertex (t.getD 0 default) ++ vertex (t.getD 1 default)
    ++ vertex (t.getD 2 default)

/-- A `QUAD` record: the tag and the vertices 0, 1, 2, 3 of the array. -/
def quadRecord (q : List Vertex) : List Nat :=
  tagQUAD ++ vertex (q.getD 0 default) ++ vertex (q.getD 1 default)
    ++ vertex (q.getD 2 default) ++ vertex (q.getD 3 default)

/-- Whether a character code is an ASCII digit or letter. -/
def isAlnum (c : Nat) : Bool :=
  (48 ≤ c && c ≤ 57) || (65 ≤ c && c ≤ 90) || (97 ≤ c && c ≤ 122)

/-- An uppercase ASCII letter mapped to lowercase, any other code unchanged. -/
def toLower (c : Nat) : Nat := if 65 ≤ c ∧ c ≤ 90 then c + 32 else c

/-- The sanitized title: the characters that are ASCII letters or digits, in
their original order, uppercase mapped to lowercase. -/
def sanitize (l : List Nat) : List Nat := (l.filter isAlnum).map toLower

/-- The placeholder title: the ASCII codes of `melonrip`. -/
def placeholder : List Nat := [109, 101, 108, 111, 110, 114, 105, 112]

/-- The records of a list of commands, in order. -/
def records (cmds : List Command) : List Nat := (cmds.map record).flatten

/-- The `VRAM` block. -/
def vram (G : GPU) : List Nat :=
  tagVRAM ++ table 4 le32 G.VRAMMap_Texture ++ table 8 le32 G.VRAMMap_TexPal
    ++ bank 131072 G.VRAM_A ++ bank 131072 G.VRAM_B ++ bank 131072 G.VRAM_C
    ++ bank 131072 G.VRAM_D ++ bank 65536 G.VRAM_E ++ bank 16384 G.VRAM_F
    ++ bank 16384 G.VRAM_G

/-- The `DISP` block. -/
def disp (G : GPU) : List Nat := tagDISP ++ le32 G.GPU3D.RenderDispCnt

/-- The `TOON` block. -/
def toon (G : GPU) : List Nat := tagTOON ++ table 32 le16 G.GPU3D.RenderToonTable

/-- The snapshot block of an environment: `VRAM`, then `DISP`, then `TOON`. -/
def snapshot (E : Host) : List Nat :=
  vram E.NDS.GPU ++ disp E.NDS.GPU ++ toon E.NDS.GPU

/-- An artifact: header, command records, one snapshot block. -/
def artifact (cmds : List Command) (E : Host) : List Nat :=
  header ++ records cmds ++ snapshot E

end Layout

/-! ## Values of the declared widths -/

/-- A value of a signed 32-bit type. -/
def isS32 (x : Int) : Prop := -2 ^ 31 ≤ x ∧ x < 2 ^ 31

/-- A value of a signed 16-bit type. -/
def isS16 (x : Int) : Prop := -2 ^ 15 ≤ x ∧ x < 2 ^ 15

instance : DecidablePred isS32 := fun x => by unfold isS32; infer_instance

instance : DecidablePred isS16 := fun x => by unfold isS16; infer_instance

/-- A vertex whose position and colour components are signed 32-bit values and
whose texture coordinates are signed 16-bit values. -/
def Vertex.Typed (v : Vertex) : Prop :=
  isS32 v.WorldPosition0 ∧ isS32 v.WorldPosition1 ∧ isS32 v.WorldPosition2
    ∧ isS32 v.Color0 ∧ isS32 v.Color1 ∧ isS32 v.Color2
    ∧ isS16 v.TexCoords0 ∧ isS16 v.TexCoords1

instance : DecidablePred Vertex.Typed := fun v => by unfold Vertex.Typed; infer_instance

/-- A command as the format sees it: a polygon is exactly its 3 or 4 vertices,
each of the declared widths; a word is a 32-bit value. -/
def Command.Typed : Command → Prop
  | .Polygon verts nverts =>
    (nverts = 3 ∨ nverts = 4) ∧ verts.length = nverts ∧ ∀ v ∈ verts, v.Typed
  | .TexParam tex_param => tex_param < 2 ^ 32
  | .TexPalette tex_pal => tex_pal < 2 ^ 32
  | .PolygonAttr attr => attr < 2 ^ 32

instance : DecidablePred Command.Typed := fun c => by
  cases c <;> unfold Command.Typed <;> infer_instance

/-- An emulator state whose captured words have the declared widths: 32-bit
mapping entries and display-control word, 16-bit toon entries. -/
def GPU.Typed (G : GPU) : Prop :=
  (∀ i < 4, G.VRAMMap_Texture i < 2 ^ 32) ∧ (∀ i < 8, G.VRAMMap_TexPal i < 2 ^ 32)
    ∧ G.GPU3D.RenderDispCnt < 2 ^ 32 ∧ ∀ i < 32, G.GPU3D.RenderToonTable i < 2 ^ 16

instance : DecidablePred GPU.Typed := fun G => by unfold GPU.Typed; infer_instance

/-- Two emulator states that agree on every captured field: the mapping
entries, the contents of the banks A to G, the display-control word and the 32
toon entries. -/
def GPU.SameCaptured (G1 G2 : GPU) : Prop :=
  (∀ i < 4, G1.VRAMMap_Texture i = G2.VRAMMap_Texture i)
    ∧ (∀ i < 8, G1.VRAMMap_TexPal i = G2.VRAMMap_TexPal i)
    ∧ (∀ i < 131072, G1.VRAM_A i = G2.VRAM_A i)
    ∧ (∀ i < 131072, G1.VRAM_B i = G2.VRAM_B i)
    ∧ (∀ i < 131072, G1.VRAM_C i = G2.VRAM_C i)
    ∧ (∀ i < 131072, G1.VRAM_D i = G2.VRAM_D i)
    ∧ (∀ i < 65536, G1.VRAM_E i = G2.VRAM_E i)
    ∧ (∀ i < 16384, G1.VRAM_F i = G2.VRAM_F i)
    ∧ (∀ i < 16384, G1.VRAM_G i = G2.VRAM_G i)
    ∧ G1.GPU3D.RenderDispCnt = G2.GPU3D.RenderDispCnt
    ∧ (∀ i < 32, G1.GPU3D.RenderToonTable i = G2.GPU3D.RenderToonTable i)

namespace Layout

/-- The 4-byte tag of the record of a command. -/
def tagOf : Command → List Nat
  | .Polygon _ nverts => if nverts = 3 then tagTRI else tagQUAD
  | .TexParam _ => tagTPRM
  | .TexPalette _ => tagTPLT
  | .PolygonAttr _ => tagPATR

/-- The payload of the record of a command, after its tag. -/
def payload : Command → List Nat
  | .Polygon verts nverts =>
    ((List.range nverts).map (fun i => vertex (verts.getD i default))).flatten
  | .TexParam tex_param => le32 tex_param
  | .TexPalette tex_pal => le32 tex_pal
  | .PolygonAttr attr => le32 attr

end Layout

/-! ## Predicates on rips and runs -/

namespace MelonRipper

/-- The byte sequences handed to `SaveFrontRipToFile` during a run, each paired
with the host of the `NotifyRender` call that handed it over, oldest first. -/
def handovers (s : MelonRipper) : List Op → List (Host × VecU8)
  | [] => []
  | .NotifyRender E :: ops =>
    (s.NotifyRender E).2.map (fun e => (E, e.bytes)) ++ handovers (s.NotifyRender E).1 ops
  | op :: ops => handovers (s.step op).1 ops

/-- A rip made of the header followed by the records of commands that all
satisfy `P`. -/
def IsCapture (P : Command → Prop) (rip : VecU8) : Prop :=
  ∃ cmds : List Command, (∀ c ∈ cmds, P c) ∧ rip = Layout.header ++ Layout.records cmds

/-- The invariant of the two rips: `FrontRip` is empty or a capture, and while
`DumpPolys` is set `BackRip` is a capture. -/
def CaptureInv (P : Command → Prop) (s : MelonRipper) : Prop :=
  (s.FrontRip = [] ∨ IsCapture P s.FrontRip) ∧ (s.DumpPolys = true → IsCapture P s.BackRip)

end MelonRipper

/-! ## Concrete inputs -/

/-- A vertex with distinct, partly negative components. -/
def vertexA : Vertex :=
  { WorldPosition0 := 1, WorldPosition1 := -2, WorldPosition2 := 3,
    Color0 := 63, Color1 := 0, Color2 := 256,
    TexCoords0 := -1, TexCoords1 := 258 }

/-- The array of a triangle. -/
def triangleA : List Vertex := [vertexA, default, vertexA]

/-- The array of a quad. -/
def quadA : List Vertex := [default, vertexA, vertexA, default]

/-- A host whose memory holds recognisable values and whose file operations
succeed. -/
def hostA : Host :=
  { NDS :=
      { GPU :=
          { VRAMMap_Texture := fun i => i + 1
            VRAMMap_TexPal := fun i => 2 * i
            VRAM_A := fun i => i % 256
            VRAM_B := fun _ => 1
            VRAM_C := fun _ => 2
            VRAM_D := fun _ => 3
            VRAM_E := fun i => (i / 256) % 256
            VRAM_F := fun _ => 5
            VRAM_G := fun _ => 6
            GPU3D := { RenderDispCnt := 0x12345678, RenderToonTable := fun i => 1000 * i } }
        NDSCartSlot := none }
    fopenOk := true
    fwriteOk := true }

/-- A second host: other memory contents, and `fopen` fails. -/
def hostB : Host :=
  { NDS :=
      { GPU :=
          { VRAMMap_Texture := fun _ => 0
            VRAMMap_TexPal := fun _ => 7
            VRAM_A := fun _ => 255
            VRAM_B := fun i => i % 7
            VRAM_C := fun _ => 0
            VRAM_D := fun _ => 0
            VRAM_E := fun _ => 9
            VRAM_F := fun _ => 0
            VRAM_G := fun i => i % 2
            GPU3D := { RenderDispCnt := 0, RenderToonTable := fun _ => 65535 } }
        NDSCartSlot := none }
    fopenOk := false
    fwriteOk := true }

/-- The first scenario in the order written: `RequestRip(1)`, two 3-vertex
polygons and one 4-vertex polygon, `NotifyFlush`, `NotifyRender`. -/
def scenario1 (t1 t2 q : List Vertex) (E : Host) : List Op :=
  [.RequestRip 1, .Command (.Polygon t1 3), .Command (.Polygon t2 3),
   .Command (.Polygon q 4), .NotifyFlush, .NotifyRender E]

/-- The first scenario with a `NotifyFlush` between the request and the
commands. -/
def scenario1Armed (t1 t2 q : List Vertex) (E : Host) : List Op :=
  [.RequestRip 1, .NotifyFlush, .Command (.Polygon t1 3), .Command (.Polygon t2 3),
   .Command (.Polygon q 4), .NotifyFlush, .NotifyRender E]

/-- The second scenario up to its first flush: `RequestRip(2)`, `NotifyFlush`. -/
def scenario2Flush1 : List Op := [.RequestRip 2, .NotifyFlush]

/-- The second scenario up to its second flush: then the commands `c1` and
`NotifyFlush`. -/
def scenario2Flush2 (c1 : List Command) : List Op :=
  scenario2Flush1 ++ c1.map Op.Command ++ [.NotifyFlush]

/-- The second scenario up to its third flush: then `NotifyRender` with `E1`, the
commands `c2` and `NotifyFlush`. -/
def scenario2Flush3 (c1 c2 : List Command) (E1 : Host) : List Op :=
  scenario2Flush2 c1 ++ [.NotifyRender E1] ++ c2.map Op.Command ++ [.NotifyFlush]

/-- The whole second scenario: then `NotifyRender` with `E2`. -/
def scenario2 (c1 c2 : List Command) (E1 E2 : Host) : List Op :=
  scenario2Flush3 c1 c2 E1 ++ [.NotifyRender E2]

/-- Some commands of every kind. -/
def cmdsA : List Command :=
  [.TexParam 0xDEADBEEF, .Polygon triangleA 3, .PolygonAttr 31, .TexPalette 4096,
   .Polygon quadA 4]

/-- A run without `Reset`: a negative request, a request of 3, and boundaries
crossed while idle and while recording. -/
def opsA : List Op :=
  [.NotifyFlush, .RequestRip (-1), .RequestRip 4, .Command (.TexParam 7), .NotifyFlush,
   .Command (.Polygon triangleA 3), .NotifyFlush, .NotifyRender hostA, .NotifyFlush,
   .NotifyRender hostB, .NotifyFlush, .RequestRip 1]

/-- A run with `Reset` whose requests are all non-negative. -/
def opsB : List Op :=
  [.RequestRip 2, .NotifyFlush, .Command (.PolygonAttr 3), .NotifyFlush, .Reset,
   .RequestRip 0, .NotifyFlush, .RequestRip 1, .NotifyFlush, .NotifyFlush, .NotifyFlush]

/-- An idle controller that holds a front rip not yet emitted and stale bytes in
its back rip. -/
def stateIdle : MelonRipper :=
  { RequestCount := 0, DumpPolys := false, BackRip := [1, 2, 3],
    FrontRip := Layout.header ++ Layout.record (.TexParam 5) }

/-- A recording controller that still holds a front rip not yet emitted. -/
def stateRecording : MelonRipper :=
  { RequestCount := 2, DumpPolys := true,
    BackRip := Layout.header ++ Layout.record (.PolygonAttr 9),
    FrontRip := Layout.header ++ Layout.record (.TexParam 5) }

/-- A run without `Reset` that ends while recording, one request still
pending. -/
def opsC : List Op :=
  [.RequestRip 0, .NotifyFlush, .RequestRip 2, .NotifyFlush, .Command (.TexPalette 1),
   .NotifyFlush, .NotifyRender hostB, .Command (.Polygon quadA 4)]

/-- A recording controller whose front rip is empty. -/
def stateArmed : MelonRipper :=
  { RequestCount := 1, DumpPolys := true, BackRip := Layout.header, FrontRip := [] }

/-- An emulator state whose cartridge is titled `MELONRIP`, padded with
spaces. -/
def ndsMelonrip : NDS :=
  { GPU := hostA.NDS.GPU
    NDSCartSlot := some (fun i => [77, 69, 76, 79, 78, 82, 73, 80].getD i 32) }

/-- An emulator state whose cartridge is titled `Mario Kart 7`. -/
def ndsMario : NDS :=
  { GPU := hostA.NDS.GPU
    NDSCartSlot := some (fun i => [77, 97, 114, 105, 111, 32, 75, 97, 114, 116, 32, 55].getD i 0) }

/-- The host `hostA` with a failing `fopen`. -/
def hostC : Host := { NDS := hostA.NDS, fopenOk := false, fwriteOk := true }

/-- A recording controller whose counter holds `INT_MIN`. -/
def stateMin : MelonRipper :=
  { RequestCount := -2147483648, DumpPolys := true, BackRip := Layout.header, FrontRip := [] }

/-- A run of public operations that ends in `stateMin`. -/
def opsMin : List Op :=
  [.RequestRip 1, .NotifyFlush, .RequestRip (-1), .RequestRip (-2147483648)]

/-- A run with requests that are not negative and that ends while recording with
the counter wrapped to `INT_MIN`. -/
def opsWrap : List Op := [.RequestRip 1, .NotifyFlush, .RequestRip 2147483647]

/-- Some other commands. -/
def cmdsB : List Command :=
  [.Polygon quadA 4, .Polygon quadA 3, .TexParam 1]

end melonDS

/-! ## The encoders produce the layout -/

namespace melonDS

open Layout

theorem magic_eq : magic = header := by decide

theorem header_length : header.length = 24 := by decide

theorem le32_length (x : Nat) : (le32 x).length = 4 := rfl

theorem le16_length (x : Nat) : (le16 x).length = 2 := rfl

theorem and_255 (x : Nat) : x &&& 0xFF = x % 256 :=
  Nat.and_pow_two_sub_one_eq_mod x 8

theorem WriteU16_eq (rip : VecU8) (x : Nat) : WriteU16 rip x = rip ++ le16 x := by
  simp [WriteU16, le16, and_255, Nat.shiftRight_eq_div_pow]

theorem WriteU32_eq (rip : VecU8) (x : Nat) : WriteU32 rip x = rip ++ le32 x := by
  simp [WriteU32, le32, and_255, Nat.shiftRight_eq_div_pow]

theorem foldl_append_eq (body : VecU8 → Nat → VecU8) (f : Nat → List Nat)
    (h : ∀ r i, body r i = r ++ f i) (l : List Nat) (rip : VecU8) :
    l.foldl body rip = rip ++ (l.map f).flatten := by
  induction l generalizing rip with
  | nil => simp
  | cons a l ih => simp [ih, h, List.append_assoc]

theorem forLoop_eq (n : Nat) (body : VecU8 → Nat → VecU8) (f : Nat → List Nat)
    (h : ∀ r i, body r i = r ++ f i) (rip : VecU8) :
    forLoop n body rip = rip ++ ((List.range n).map f).flatten :=
  foldl_append_eq body f h (List.range n) rip

theorem WriteOpcode_TRI (rip : VecU8) : WriteOpcode rip "TRI " = rip ++ tagTRI := by
  unfold WriteOpcode; congr 1

theorem WriteOpcode_QUAD (rip : VecU8) : WriteOpcode rip "QUAD" = rip ++ tagQUAD := by
  unfold WriteOpcode; congr 1

theorem WriteOpcode_TPRM (rip : VecU8) : WriteOpcode rip "TPRM" = rip ++ tagTPRM := by
  unfold WriteOpcode; congr 1

theorem WriteOpcode_TPLT (rip : VecU8) : WriteOpcode rip "TPLT" = rip ++ tagTPLT := by
  unfold WriteOpcode; congr 1

theorem WriteOpcode_PATR (rip : VecU8) : WriteOpcode rip "PATR" = rip ++ tagPATR := by
  unfold WriteOpcode; congr 1

theorem WriteOpcode_VRAM (rip : VecU8) : WriteOpcode rip "VRAM" = rip ++ tagVRAM := by
  unfold WriteOpcode; congr 1

theorem WriteOpcode_DISP (rip : VecU8) : WriteOpcode rip "DISP" = rip ++ tagDISP := by
  unfold WriteOpcode; congr 1

theorem WriteOpcode_TOON (rip : VecU8) : WriteOpcode rip "TOON" = rip ++ tagTOON := by
  unfold WriteOpcode; congr 1

theorem WriteVertex_eq (rip : VecU8) (v : Vertex) : WriteVertex rip v = rip ++ vertex v := by
  simp [WriteVertex, vertex, WriteU32_eq, WriteU16_eq, List.append_assoc]

theorem WritePolygon_eq (rip : VecU8) (verts : List Vertex) (nverts : Nat) :
    WritePolygon rip verts nverts = rip ++ record (.Polygon verts nverts) := by
  unfold WritePolygon
  simp only []
  rw [forLoop_eq nverts _ (fun i => vertex (verts.getD i default))
    (fun r i => WriteVertex_eq r _)]
  by_cases h : nverts = 3
  · simp [h, record, WriteOpcode_TRI, List.append_assoc]
  · simp [h, record, WriteOpcode_QUAD, List.append_assoc]

theorem WriteTexParam_eq (rip : VecU8) (x : Nat) :
    WriteTexParam rip x = rip ++ record (.TexParam x) := by
  simp [WriteTexParam, record, WriteOpcode_TPRM, WriteU32_eq, List.append_assoc]

theorem WriteTexPalette_eq (rip : VecU8) (x : Nat) :
    WriteTexPalette rip x = rip ++ record (.TexPalette x) := by
  simp [WriteTexPalette, record, WriteOpcode_TPLT, WriteU32_eq, List.append_assoc]

theorem WritePolygonAttr_eq (rip : VecU8) (x : Nat) :
    WritePolygonAttr rip x = rip ++ record (.PolygonAttr x) := by
  simp [WritePolygonAttr, record, WriteOpcode_PATR, WriteU32_eq, List.append_assoc]

theorem DumpBank_eq (rip : VecU8) (a : Nat → Nat) (nkb : Nat) :
    DumpBank rip a nkb = rip ++ bank (nkb * 1024) a := rfl

theorem WriteVRAM_eq (rip : VecU8) (G : GPU) : WriteVRAM rip G = rip ++ vram G := by
  unfold WriteVRAM
  simp only []
  rw [forLoop_eq 4 _ (fun i => le32 (G.VRAMMap_Texture i)) (fun r i => WriteU32_eq r _),
    forLoop_eq 8 _ (fun i => le32 (G.VRAMMap_TexPal i)) (fun r i => WriteU32_eq r _)]
  simp only [DumpBank_eq, WriteOpcode_VRAM, vram, table, List.append_assoc]

theorem WriteDispCnt_eq (rip : VecU8) (G : GPU) :
    WriteDispCnt rip G.GPU3D.RenderDispCnt = rip ++ disp G := by
  simp [WriteDispCnt, disp, WriteOpcode_DISP, WriteU32_eq, List.append_assoc]

theorem WriteToonTable_eq (rip : VecU8) (G : GPU) :
    WriteToonTable rip G.GPU3D.RenderToonTable = rip ++ toon G := by
  unfold WriteToonTable
  simp only []
  rw [forLoop_eq 32 _ (fun i => le16 (G.GPU3D.RenderToonTable i)) (fun r i => WriteU16_eq r _)]
  simp [toon, table, WriteOpcode_TOON, List.append_assoc]

/-! ## The snapshot block -/

theorem table_length (n k : Nat) (enc : Nat → List Nat) (a : Nat → Nat)
    (h : ∀ x, (enc x).length = k) : (table n enc a).length = n * k := by
  unfold table
  induction n with
  | zero => simp
  | succ m ih =>
    rw [List.range_succ, List.map_append, List.flatten_append, List.length_append, ih]
    simp [h, Nat.succ_mul]

theorem bank_length (n : Nat) (a : Nat → Nat) : (bank n a).length = n := by
  simp [bank]

theorem vram_length (G : GPU) : (vram G).length = 622644 := by
  unfold vram
  simp only [List.length_append, bank_length, table_length _ 4 le32 _ le32_length]
  rfl

theorem disp_length (G : GPU) : (disp G).length = 8 := rfl

theorem toon_length (G : GPU) : (toon G).length = 68 := by
  unfold toon
  simp only [List.length_append, table_length _ 2 le16 _ le16_length]
  rfl

theorem snapshot_length (E : Host) : (snapshot E).length = 622720 := by
  unfold snapshot
  simp only [List.length_append, vram_length, disp_length, toon_length]

namespace MelonRipper

theorem FinishFrontRip_eq (s : MelonRipper) (E : Host) :
    s.FinishFrontRip E.NDS = { s with FrontRip := s.FrontRip ++ snapshot E } := by
  simp [FinishFrontRip, snapshot, WriteVRAM_eq, WriteDispCnt_eq, WriteToonTable_eq,
    List.append_assoc]

/-! ## The controller -/

theorem command_eq (s : MelonRipper) (c : Command) :
    s.command c = { s with BackRip := s.BackRip ++ record c } := by
  cases c <;>
    simp [command, Polygon, TexParam, TexPalette, PolygonAttr, WritePolygon_eq,
      WriteTexParam_eq, WriteTexPalette_eq, WritePolygonAttr_eq]

theorem commands_eq (s : MelonRipper) (cmds : List Command) :
    s.commands cmds = { s with BackRip := s.BackRip ++ records cmds } := by
  unfold commands
  induction cmds generalizing s with
  | nil => simp [records]
  | cons c cmds ih =>
    rw [List.foldl_cons, ih, command_eq]
    simp [records, List.append_assoc]

theorem run_append (s : MelonRipper) (a b : List Op) :
    s.run (a ++ b) = (((s.run a).1.run b).1, (s.run a).2 ++ ((s.run a).1.run b).2) := by
  induction a generalizing s with
  | nil => simp [run]
  | cons op a ih => simp [run, ih, List.append_assoc]

theorem run_commands (s : MelonRipper) (cmds : List Command) :
    s.run (cmds.map Op.Command) = (s.commands cmds, []) := by
  unfold commands
  induction cmds generalizing s with
  | nil => simp [run]
  | cons c cmds ih => simp [run, step, ih]

theorem wrapInt_of_isInt (x : Int) (h : isInt x) : wrapInt x = x := by
  unfold isInt at h
  unfold wrapInt
  omega

theorem isInt_wrapInt (x : Int) : isInt (wrapInt x) := by
  unfold isInt wrapInt
  omega

theorem NotifyFlush_recording (s : MelonRipper) (h : s.DumpPolys = true) :
    s.NotifyFlush =
      if 0 < wrapInt (s.RequestCount - 1) then
        { RequestCount := wrapInt (s.RequestCount - 1), DumpPolys := true, BackRip := header,
          FrontRip := s.BackRip }
      else
        { RequestCount := wrapInt (s.RequestCount - 1), DumpPolys := false, BackRip := [],
          FrontRip := s.BackRip } := by
  simp [NotifyFlush, h, InitBackRip, WriteMagic, magic_eq]

theorem NotifyFlush_idle (s : MelonRipper) (h : s.DumpPolys = false) :
    s.NotifyFlush =
      if 0 < s.RequestCount then { s with DumpPolys := true, BackRip := header }
      else s := by
  cases s
  simp_all [NotifyFlush, InitBackRip, WriteMagic, magic_eq]

theorem NotifyRender_nonempty (s : MelonRipper) (E : Host) (h : s.FrontRip ≠ []) :
    s.NotifyRender E =
      ({ s with FrontRip := [] },
       [{ bytes := s.FrontRip ++ snapshot E, ok := E.fopenOk && E.fwriteOk }]) := by
  cases hf : s.FrontRip with
  | nil => exact absurd hf h
  | cons a l => simp [NotifyRender, hf, FinishFrontRip_eq, SaveFrontRipToFile]

theorem NotifyRender_empty (s : MelonRipper) (E : Host) (h : s.FrontRip = []) :
    s.NotifyRender E = (s, []) := by
  simp [NotifyRender, h]

theorem NotifyRender_bytes (s : MelonRipper) (E : Host) (h : s.FrontRip ≠ []) :
    (s.NotifyRender E).2.map Emission.bytes = [s.FrontRip ++ snapshot E] := by
  rw [NotifyRender_nonempty s E h]; rfl

theorem NotifyRender_state (s : MelonRipper) (E : Host) :
    (s.NotifyRender E).1 = { s with FrontRip := [] } := by
  by_cases h : s.FrontRip = []
  · rw [NotifyRender_empty s E h]
    cases s
    simp_all
  · rw [NotifyRender_nonempty s E h]

theorem flush_after_commands (s : MelonRipper) (cmds : List Command)
    (h : s.DumpPolys = true) :
    (s.commands cmds).NotifyFlush =
      if 0 < wrapInt (s.RequestCount - 1) then
        { RequestCount := wrapInt (s.RequestCount - 1), DumpPolys := true, BackRip := header,
          FrontRip := s.BackRip ++ records cmds }
      else
        { RequestCount := wrapInt (s.RequestCount - 1), DumpPolys := false, BackRip := [],
          FrontRip := s.BackRip ++ records cmds } := by
  rw [NotifyFlush_recording _ (by rw [commands_eq]; exact h), commands_eq]

theorem header_append_ne_nil (l : List Nat) : header ++ l ≠ [] := by
  simp [header]

theorem arm_fresh (n : Int) (hn : 1 ≤ n) (hmax : n ≤ 2147483647) :
    (fresh.RequestRip n).NotifyFlush =
      { RequestCount := n, DumpPolys := true, BackRip := header, FrontRip := [] } := by
  have hw : wrapInt n = n := wrapInt_of_isInt _ (by unfold isInt; omega)
  have hs : fresh.RequestRip n
      = { RequestCount := n, DumpPolys := false, BackRip := [], FrontRip := [] } := by
    simp [RequestRip, fresh, hw]
  rw [hs, NotifyFlush_idle _ rfl, if_pos (by show (0 : Int) < n; omega)]

/-! ## End-to-end capture -/

/-- C1: from a freshly constructed controller, for every `int` value `n ≥ 1`
(so `n ≤ INT_MAX = 2147483647`), every list of
commands (polygons with 3 or 4 vertices, `TexParam`, `TexPalette` and
`PolygonAttr` words) and every environment `E`, the run `RequestRip(n)`,
`NotifyFlush`, the commands in order, `NotifyFlush`, `NotifyRender` with `E` hands
exactly one byte sequence to `SaveFrontRipToFile`: the 24-byte header, then the
records of the commands in order, then the `VRAM`/`DISP`/`TOON` snapshot of `E`. -/
theorem capture_end_to_end (n : Int) (hn : 1 ≤ n) (hmax : n ≤ 2147483647)
    (cmds : List Command) (_hvalid : ∀ c ∈ cmds, c.Valid) (E : Host) :
    fresh.emitted
        ([.RequestRip n, .NotifyFlush] ++ cmds.map Op.Command
          ++ [.NotifyFlush, .NotifyRender E])
      = [header ++ records cmds ++ snapshot E] := by
  unfold emitted
  rw [run_append, run_append, run_commands]
  simp only [run, step, List.append_nil, List.nil_append, arm_fresh n hn hmax]
  rw [flush_after_commands _ _ (by rfl)]
  split <;> rw [NotifyRender_bytes _ _ (by exact header_append_ne_nil _)]

/-- Witness of C1 on `cmdsA` and `hostA` with `n = 1`. -/
theorem capture_end_to_end_witness :
    ((1 : Int) ≤ 1 ∧ (1 : Int) ≤ 2147483647) ∧ (∀ c ∈ cmdsA, c.Valid) ∧
      fresh.emitted
          ([.RequestRip 1, .NotifyFlush] ++ cmdsA.map Op.Command
            ++ [.NotifyFlush, .NotifyRender hostA])
        = [header ++ records cmdsA ++ snapshot hostA] :=
  ⟨by decide, by decide,
   capture_end_to_end 1 (by decide) (by decide) cmdsA (by decide) hostA⟩

/-! ## The two scenarios -/

/-- C2, counterexample: in the order written (`RequestRip(1)`, two triangles and
a quad, `NotifyFlush`, `NotifyRender`) the first boundary only arms the
recording: nothing is handed to `SaveFrontRipToFile` and `RequestCount` is
still 1, so the run neither emits the artifact nor ends with a count of 0. -/
theorem scenario1_as_written_fails :
    (fresh.emitted (scenario1 triangleA triangleA quadA hostA) = [] ∧
      (fresh.run (scenario1 triangleA triangleA quadA hostA)).1.RequestCount = 1) ∧
      ¬ (fresh.emitted (scenario1 triangleA triangleA quadA hostA)
            = [header ++ triRecord triangleA ++ triRecord triangleA ++ quadRecord quadA
                ++ (vram hostA.NDS.GPU ++ disp hostA.NDS.GPU ++ toon hostA.NDS.GPU)]
          ∧ (fresh.run (scenario1 triangleA triangleA quadA hostA)).1.RequestCount = 0) := by
  have h1 : fresh.emitted (scenario1 triangleA triangleA quadA hostA) = [] := by decide
  have h2 : (fresh.run (scenario1 triangleA triangleA quadA hostA)).1.RequestCount = 1 := by
    decide
  refine ⟨⟨h1, h2⟩, fun h => ?_⟩
  rw [h2] at h
  exact absurd h.2 (by decide)

/-- C2, amended: with the arming boundary in place (`RequestRip(1)`,
`NotifyFlush`, two 3-vertex polygons and one 4-vertex polygon, `NotifyFlush`,
`NotifyRender` with `E`) exactly one artifact is emitted, made of the header, two
`TRI ` records, one `QUAD` record and the `VRAM`, `DISP` and `TOON` blocks of `E`,
and `RequestCount` is 0 afterwards; in the order written, without the first
`NotifyFlush`, nothing is emitted and `RequestCount` stays 1. -/
theorem scenario1_with_arming_boundary (t1 t2 q : List Vertex)
    (_h1 : 3 ≤ t1.length) (_h2 : 3 ≤ t2.length) (_hq : 4 ≤ q.length) (E : Host) :
    (fresh.emitted (scenario1Armed t1 t2 q E)
        = [header ++ triRecord t1 ++ triRecord t2 ++ quadRecord q
            ++ (vram E.NDS.GPU ++ disp E.NDS.GPU ++ toon E.NDS.GPU)]
      ∧ (fresh.run (scenario1Armed t1 t2 q E)).1.RequestCount = 0)
    ∧ (fresh.emitted (scenario1 t1 t2 q E) = []
      ∧ (fresh.run (scenario1 t1 t2 q E)).1.RequestCount = 1) := by
  have ha := arm_fresh 1 (by decide) (by decide)
  have hf := flush_after_commands
    { RequestCount := 1, DumpPolys := true, BackRip := header, FrontRip := [] }
    [.Polygon t1 3, .Polygon t2 3, .Polygon q 4] rfl
  simp only [commands, List.foldl_cons, List.foldl_nil] at hf
  have hr : records [.Polygon t1 3, .Polygon t2 3, .Polygon q 4]
      = triRecord t1 ++ triRecord t2 ++ quadRecord q := by
    simp [records, record, triRecord, quadRecord, List.range_succ, List.append_assoc]
  have hi : ∀ s : MelonRipper, s.DumpPolys = false → s.RequestCount = 1 →
      s.FrontRip = [] → (s.NotifyFlush.NotifyRender E).2 = []
        ∧ (s.NotifyFlush.NotifyRender E).1.RequestCount = 1 := by
    intro s hd hc hfr
    rw [NotifyFlush_idle s hd, if_pos (by omega), NotifyRender_empty _ _ (by exact hfr)]
    exact ⟨rfl, hc⟩
  refine ⟨⟨?_, ?_⟩, ?_⟩
  · unfold emitted scenario1Armed
    simp only [run, step, List.nil_append, List.append_nil, ha, hf]
    rw [if_neg (by decide), NotifyRender_bytes _ _ (by exact header_append_ne_nil _), hr]
    simp [snapshot, List.append_assoc]
  · unfold scenario1Armed
    simp only [run, step, ha, hf]
    rw [if_neg (by decide), NotifyRender_state]
    rfl
  · have h := hi (((((fresh.RequestRip 1).command (.Polygon t1 3)).command
      (.Polygon t2 3)).command (.Polygon q 4)))
      (by simp [command_eq, RequestRip, fresh])
      (by simp only [command_eq, RequestRip, fresh]; decide)
      (by simp [command_eq, RequestRip, fresh])
    unfold emitted scenario1
    simp only [run, step, List.nil_append, List.append_nil]
    exact ⟨by rw [h.1]; rfl, h.2⟩

/-- Witness of the amended C2 on `triangleA`, `quadA` and `hostA`. -/
theorem scenario1_with_arming_boundary_witness :
    (3 ≤ triangleA.length ∧ 4 ≤ quadA.length) ∧
      (fresh.emitted (scenario1Armed triangleA triangleA quadA hostA)
          = [header ++ triRecord triangleA ++ triRecord triangleA ++ quadRecord quadA
              ++ (vram hostA.NDS.GPU ++ disp hostA.NDS.GPU ++ toon hostA.NDS.GPU)]
        ∧ (fresh.run (scenario1Armed triangleA triangleA quadA hostA)).1.RequestCount = 0) :=
  ⟨by decide,
   (scenario1_with_arming_boundary triangleA triangleA quadA (by decide) (by decide)
      (by decide) hostA).1⟩

/-- C3: from a freshly constructed controller, for all command lists `c1`, `c2`
and environments `E1`, `E2`, in the run `RequestRip(2)`, `NotifyFlush`, `c1`,
`NotifyFlush`, `NotifyRender(E1)`, `c2`, `NotifyFlush`, `NotifyRender(E2)` the flag
`DumpPolys` is set after the first and the second flush and clear after the
third, `RequestCount` is 2, 1 and 0 after the three flushes, and exactly two
artifacts are emitted: header, records of `c1`, snapshot of `E1`, and header,
records of `c2`, snapshot of `E2`. -/
theorem scenario2_two_artifacts (c1 c2 : List Command)
    (_hv1 : ∀ c ∈ c1, c.Valid) (_hv2 : ∀ c ∈ c2, c.Valid) (E1 E2 : Host) :
    ((fresh.run scenario2Flush1).1.DumpPolys = true
        ∧ (fresh.run scenario2Flush1).1.RequestCount = 2)
      ∧ ((fresh.run (scenario2Flush2 c1)).1.DumpPolys = true
        ∧ (fresh.run (scenario2Flush2 c1)).1.RequestCount = 1)
      ∧ ((fresh.run (scenario2Flush3 c1 c2 E1)).1.DumpPolys = false
        ∧ (fresh.run (scenario2Flush3 c1 c2 E1)).1.RequestCount = 0)
      ∧ fresh.emitted (scenario2 c1 c2 E1 E2)
          = [header ++ records c1 ++ snapshot E1, header ++ records c2 ++ snapshot E2] := by
  have hA : fresh.run scenario2Flush1
      = ({ RequestCount := 2, DumpPolys := true, BackRip := header, FrontRip := [] }, []) := by
    simp only [scenario2Flush1, run, step, arm_fresh 2 (by decide) (by decide), List.append_nil]
  have hB : fresh.run (scenario2Flush2 c1)
      = ({ RequestCount := 1, DumpPolys := true, BackRip := header,
           FrontRip := header ++ records c1 }, []) := by
    unfold scenario2Flush2
    rw [run_append, run_append, hA, run_commands]
    simp only [run, step, List.append_nil]
    rw [flush_after_commands _ _ rfl, if_pos (by decide)]
    rfl
  have hC : fresh.run (scenario2Flush3 c1 c2 E1)
      = ({ RequestCount := 0, DumpPolys := false, BackRip := [],
           FrontRip := header ++ records c2 },
         [{ bytes := header ++ records c1 ++ snapshot E1, ok := E1.fopenOk && E1.fwriteOk }]) := by
    unfold scenario2Flush3
    rw [run_append, run_append, run_append, hB, run_commands]
    simp only [run, step, List.append_nil, List.nil_append]
    rw [NotifyRender_nonempty _ _ (by exact header_append_ne_nil _)]
    simp only []
    rw [flush_after_commands _ _ rfl, if_neg (by decide)]
    rfl
  refine ⟨?_, ?_, ?_, ?_⟩
  · rw [hA]; exact ⟨rfl, rfl⟩
  · rw [hB]; exact ⟨rfl, rfl⟩
  · rw [hC]; exact ⟨rfl, rfl⟩
  · unfold emitted scenario2
    rw [run_append, hC]
    simp only [run, step, List.append_nil]
    rw [NotifyRender_nonempty _ _ (by exact header_append_ne_nil _)]
    rfl

/-- Witness of C3 on `cmdsA`, `cmdsB`, `hostA` and `hostB`. -/
theorem scenario2_two_artifacts_witness :
    ((∀ c ∈ cmdsA, c.Valid) ∧ (∀ c ∈ cmdsB, c.Valid)) ∧
      fresh.emitted (scenario2 cmdsA cmdsB hostA hostB)
        = [header ++ records cmdsA ++ snapshot hostA,
           header ++ records cmdsB ++ snapshot hostB] :=
  ⟨by decide,
   (scenario2_two_artifacts cmdsA cmdsB (by decide) (by decide) hostA hostB).2.2.2⟩

/-! ## The request counter -/

theorem NotifyFlush_RequestCount (s : MelonRipper) :
    s.NotifyFlush.RequestCount
      = if s.DumpPolys then wrapInt (s.RequestCount - 1) else s.RequestCount := by
  cases hd : s.DumpPolys with
  | true => rw [NotifyFlush_recording s hd]; split <;> simp
  | false => rw [NotifyFlush_idle s hd]; split <;> simp

theorem NotifyFlush_DumpPolys (s : MelonRipper) :
    s.NotifyFlush.DumpPolys = true ↔ 0 < s.NotifyFlush.RequestCount := by
  cases hd : s.DumpPolys with
  | true => rw [NotifyFlush_recording s hd]; split <;> simp_all
  | false => rw [NotifyFlush_idle s hd]; split <;> simp_all

theorem run_RequestCount (s : MelonRipper) (ops : List Op)
    (h : ∀ op ∈ ops, op.isReset = false) (hno : s.noOverflow ops = true) :
    (s.run ops).1.RequestCount
      = s.RequestCount + requested ops - (swapsWhileRecording s ops : Int) := by
  induction ops generalizing s with
  | nil => simp [run, requested, swapsWhileRecording]
  | cons op ops ih =>
    have ih2 := fun t => ih t (fun o ho => h o (List.mem_cons_of_mem _ ho))
    have hop := h op (List.mem_cons_self _ _)
    cases op with
    | RequestRip count =>
      simp only [noOverflow, Bool.and_eq_true, decide_eq_true_eq] at hno
      have hrc : (s.RequestRip count).RequestCount = s.RequestCount + count :=
        wrapInt_of_isInt _ hno.1.2
      have hi := ih2 (s.RequestRip count) hno.2
      rw [hrc] at hi
      simp only [run, requested, swapsWhileRecording, step]
      omega
    | Command c =>
      have hi := ih2 (s.command c) hno
      have hrc : (s.command c).RequestCount = s.RequestCount := by rw [command_eq]
      rw [hrc] at hi
      simp only [run, requested, swapsWhileRecording, step]
      exact hi
    | NotifyFlush =>
      simp only [noOverflow, Bool.and_eq_true, Bool.or_eq_true, Bool.not_eq_true',
        decide_eq_true_eq] at hno
      have hi := ih2 s.NotifyFlush hno.2
      rw [NotifyFlush_RequestCount] at hi
      simp only [run, requested, swapsWhileRecording, step]
      cases hd : s.DumpPolys with
      | true =>
        have hw := wrapInt_of_isInt _ (hno.1.resolve_left (by simp [hd]))
        rw [hd, if_pos rfl, hw] at hi
        simp only [if_true]
        push_cast
        omega
      | false =>
        rw [hd, if_neg (by simp)] at hi
        simp only [Bool.false_eq_true, if_false]
        push_cast
        omega
    | NotifyRender E =>
      have hi := ih2 (s.NotifyRender E).1 hno
      have hrc : (s.NotifyRender E).1.RequestCount = s.RequestCount := by
        rw [NotifyRender_state]
      rw [hrc] at hi
      simp only [run, requested, swapsWhileRecording, step]
      exact hi
    | Reset => simp [Op.isReset] at hop

/-- C4, counterexample: `RequestRip(INT_MAX)` then `RequestRip(1)` on a freshly
constructed controller; the sum of the requested counts is `2 ^ 31`, no
`NotifyFlush` was made, and the `int` counter holds `INT_MIN`. -/
theorem requestCount_overflow :
    (fresh.run [.RequestRip 2147483647, .RequestRip 1]).1.RequestCount = -2147483648
      ∧ requested [.RequestRip 2147483647, .RequestRip 1]
          - (swapsWhileRecording fresh [.RequestRip 2147483647, .RequestRip 1] : Int)
          = 2147483648
      ∧ ¬ ((fresh.run [.RequestRip 2147483647, .RequestRip 1]).1.RequestCount
            = requested [.RequestRip 2147483647, .RequestRip 1]
              - (swapsWhileRecording fresh [.RequestRip 2147483647, .RequestRip 1] : Int)) := by
  decide

/-- C4, amended: for every sequence of operations without `Reset` (`RequestRip`
with any counts, commands, `NotifyFlush`, `NotifyRender`) applied to a freshly
constructed controller in which no addition or decrement of the `int` counter
overflows, the resulting `RequestCount` is the sum of all requested counts minus
the number of `NotifyFlush` calls made while `DumpPolys` was set. -/
theorem requestCount_accounting (ops : List Op) (h : ∀ op ∈ ops, op.isReset = false)
    (hno : fresh.noOverflow ops = true) :
    (fresh.run ops).1.RequestCount
      = requested ops - (swapsWhileRecording fresh ops : Int) := by
  rw [run_RequestCount fresh ops h hno]
  simp [fresh]

/-- Witness of the amended C4 on a run with a negative request, three swaps
while recording and one boundary crossed while idle. -/
theorem requestCount_accounting_witness :
    ((∀ op ∈ opsA, op.isReset = false) ∧ fresh.noOverflow opsA = true) ∧
      (fresh.run opsA).1.RequestCount
        = requested opsA - (swapsWhileRecording fresh opsA : Int) :=
  ⟨by decide, requestCount_accounting opsA (by decide) (by decide)⟩

theorem requested_nonneg (ops : List Op) (hops : ∀ op ∈ ops, op.countNonneg) :
    0 ≤ requested ops := by
  induction ops with
  | nil => simp [requested]
  | cons op ops ih =>
    have ih2 := ih (fun o ho => hops o (List.mem_cons_of_mem _ ho))
    have hop := hops op (List.mem_cons_self _ _)
    cases op with
    | RequestRip count =>
      simp only [Op.countNonneg] at hop
      simp only [requested]
      omega
    | Command c => simpa only [requested] using ih2
    | NotifyFlush => simpa only [requested] using ih2
    | NotifyRender E => simpa only [requested] using ih2
    | Reset => simpa only [requested] using ih2

/-- The invariant behind the sign of the counter: with requests that are not
negative and that fit, together with the current count, in the range of `int`,
no operation overflows; while recording at least one request is pending, and the
counter is never negative nor above what was requested. -/
theorem run_pending (s : MelonRipper) (ops : List Op) (hops : ∀ op ∈ ops, op.countNonneg)
    (h : (s.DumpPolys = true → 1 ≤ s.RequestCount) ∧ 0 ≤ s.RequestCount)
    (hb : s.RequestCount + requested ops ≤ 2147483647) :
    ((s.run ops).1.DumpPolys = true → 1 ≤ (s.run ops).1.RequestCount)
      ∧ 0 ≤ (s.run ops).1.RequestCount
      ∧ (s.run ops).1.RequestCount ≤ s.RequestCount + requested ops := by
  induction ops generalizing s with
  | nil => simpa [run, requested] using h
  | cons op ops ih =>
    have hrest := requested_nonneg ops (fun o ho => hops o (List.mem_cons_of_mem _ ho))
    have ih2 := fun t => ih t (fun o ho => hops o (List.mem_cons_of_mem _ ho))
    have hop := hops op (List.mem_cons_self _ _)
    have h0 := h.2
    cases op with
    | RequestRip count =>
      simp only [Op.countNonneg] at hop
      simp only [requested] at hb
      have hrc : (s.RequestRip count).RequestCount = s.RequestCount + count :=
        wrapInt_of_isInt _ (by unfold isInt; omega)
      have hdp : (s.RequestRip count).DumpPolys = s.DumpPolys := rfl
      have hi := ih2 (s.RequestRip count)
        ⟨fun hd => by rw [hdp] at hd; have := h.1 hd; rw [hrc]; omega, by rw [hrc]; omega⟩
        (by rw [hrc]; omega)
      rw [hrc] at hi
      simp only [run, step, requested]
      exact ⟨hi.1, hi.2.1, by omega⟩
    | Command c =>
      simp only [requested] at hb
      have hrc : (s.command c).RequestCount = s.RequestCount := by rw [command_eq]
      have hdp : (s.command c).DumpPolys = s.DumpPolys := by rw [command_eq]
      have hi := ih2 (s.command c) ⟨fun hd => by rw [hdp] at hd; rw [hrc]; exact h.1 hd,
        by rw [hrc]; exact h0⟩ (by rw [hrc]; exact hb)
      rw [hrc] at hi
      simp only [run, step, requested]
      exact hi
    | NotifyFlush =>
      simp only [requested] at hb
      have hrc : 0 ≤ s.NotifyFlush.RequestCount
          ∧ s.NotifyFlush.RequestCount ≤ s.RequestCount := by
        rw [NotifyFlush_RequestCount]
        cases hd : s.DumpPolys with
        | true =>
          have := h.1 hd
          have hw : wrapInt (s.RequestCount - 1) = s.RequestCount - 1 :=
            wrapInt_of_isInt _ (by unfold isInt; omega)
          simp only [if_true, hw]
          omega
        | false =>
          simp only [Bool.false_eq_true, if_false]
          omega
      have hi := ih2 s.NotifyFlush
        ⟨fun hd => by have := (NotifyFlush_DumpPolys s).1 hd; omega, hrc.1⟩ (by omega)
      simp only [run, step, requested]
      exact ⟨hi.1, hi.2.1, by omega⟩
    | NotifyRender E =>
      simp only [requested] at hb
      have hrc : (s.NotifyRender E).1.RequestCount = s.RequestCount := by
        rw [NotifyRender_state]
      have hdp : (s.NotifyRender E).1.DumpPolys = s.DumpPolys := by
        rw [NotifyRender_state]
      have hi := ih2 (s.NotifyRender E).1
        ⟨fun hd => by rw [hdp] at hd; rw [hrc]; exact h.1 hd, by rw [hrc]; exact h0⟩
        (by rw [hrc]; exact hb)
      rw [hrc] at hi
      simp only [run, step, requested]
      exact hi
    | Reset =>
      simp only [requested] at hb
      have hrc : s.Reset.RequestCount = 0 := rfl
      have hi := ih2 s.Reset ⟨fun hd => by simp [Reset] at hd, by rw [hrc]⟩
        (by rw [hrc]; omega)
      rw [hrc] at hi
      simp only [run, step, requested]
      exact ⟨hi.1, hi.2.1, by omega⟩

/-- C5, counterexample: `RequestRip` takes any `int`; after `RequestRip(-1)` on a
freshly constructed controller `RequestCount` is `-1`.  Non-negative requests
whose sum exceeds `INT_MAX` also end below zero: `RequestRip(INT_MAX)` then
`RequestRip(1)` leaves `INT_MIN`. -/
theorem requestCount_negative :
    ((fresh.run [.RequestRip (-1)]).1.RequestCount = -1
        ∧ ¬ (0 ≤ (fresh.run [.RequestRip (-1)]).1.RequestCount))
      ∧ ¬ (0 ≤ (fresh.run [.RequestRip 2147483647, .RequestRip 1]).1.RequestCount) := by
  decide

/-- C5, amended: when every `RequestRip` of the sequence is given a count that is
not negative and the requested counts sum to at most `INT_MAX = 2147483647`,
`RequestCount` is not negative in the state reached from a freshly constructed
controller by any sequence of public operations (`RequestRip`, the four commands,
`NotifyFlush`, `NotifyRender`, `Reset`). -/
theorem requestCount_nonneg (ops : List Op) (hops : ∀ op ∈ ops, op.countNonneg)
    (hsum : requested ops ≤ 2147483647) :
    0 ≤ (fresh.run ops).1.RequestCount :=
  (run_pending fresh ops hops ⟨fun h => by simp [fresh] at h, by simp [fresh]⟩
    (by simp only [fresh]; omega)).2.1

/-- Witness of the amended C5 on a run with `Reset` and several requests. -/
theorem requestCount_nonneg_witness :
    ((∀ op ∈ opsB, op.countNonneg) ∧ requested opsB ≤ 2147483647)
      ∧ 0 ≤ (fresh.run opsB).1.RequestCount :=
  ⟨by decide, requestCount_nonneg opsB (by decide) (by decide)⟩

/-! ## Commands -/

/-- C6, counterexample: on a freshly constructed controller `DumpPolys` is clear,
yet each of the four command operations changes `BackRip`: the member functions
write their record without testing the flag. -/
theorem command_while_idle_appends :
    fresh.DumpPolys = false
      ∧ (fresh.TexParam 0).BackRip = [84, 80, 82, 77, 0, 0, 0, 0]
      ∧ (fresh.TexParam 0).BackRip ≠ fresh.BackRip
      ∧ (fresh.TexPalette 0).BackRip ≠ fresh.BackRip
      ∧ (fresh.PolygonAttr 0).BackRip ≠ fresh.BackRip
      ∧ (fresh.Polygon triangleA 3).BackRip ≠ fresh.BackRip := by
  decide

/-- C6, amended: each of the four command operations, in every controller state
and whatever the value of `DumpPolys`, appends exactly the record of that command
to the end of `BackRip` and leaves `FrontRip`, `RequestCount` and `DumpPolys`
unchanged. -/
theorem command_appends_record (s : MelonRipper) (c : Command) (_hv : c.Valid) :
    (s.command c).BackRip = s.BackRip ++ record c
      ∧ (s.command c).FrontRip = s.FrontRip
      ∧ (s.command c).RequestCount = s.RequestCount
      ∧ (s.command c).DumpPolys = s.DumpPolys := by
  rw [command_eq]
  exact ⟨rfl, rfl, rfl, rfl⟩

/-- Witness of the amended C6: a quad submitted to an idle controller that holds
a front rip. -/
theorem command_appends_record_witness :
    (Command.Polygon quadA 4).Valid ∧
      (stateIdle.command (.Polygon quadA 4)).BackRip
        = stateIdle.BackRip ++ record (.Polygon quadA 4) :=
  ⟨by decide, (command_appends_record stateIdle (.Polygon quadA 4) (by decide)).1⟩

/-! ## Boundaries -/

theorem run_after_swap (s : MelonRipper) (ops : List Op)
    (h : ∀ op ∈ ops, op.isCommandOrRequest) :
    (s.run ops).1.FrontRip = s.FrontRip ∧ (s.run ops).2 = [] := by
  induction ops generalizing s with
  | nil => simp [run]
  | cons op ops ih =>
    have ih2 := fun t => ih t (fun o ho => h o (List.mem_cons_of_mem _ ho))
    have hop := h op (List.mem_cons_self _ _)
    cases op with
    | RequestRip count => simp [run, step, ih2, RequestRip]
    | Command c => simp [run, step, ih2, command_eq]
    | NotifyFlush => simp [Op.isCommandOrRequest] at hop
    | NotifyRender E => simp [Op.isCommandOrRequest] at hop
    | Reset => simp [Op.isCommandOrRequest] at hop

/-- C7: for every state with `DumpPolys` set, `NotifyFlush` makes `FrontRip` equal
to the `BackRip` held just before the call, whatever `FrontRip` held before: the
result does not depend on the previous `FrontRip`, whose bytes are in neither rip
afterwards (`BackRip` is empty or the bare header); and any sequence of command
operations and `RequestRip` calls performed after the swap leaves `FrontRip`
unchanged. -/
theorem no_torn_frame (s : MelonRipper) (h : s.DumpPolys = true) :
    s.NotifyFlush.FrontRip = s.BackRip
      ∧ (s.NotifyFlush.BackRip = [] ∨ s.NotifyFlush.BackRip = header)
      ∧ (∀ f : VecU8, ({ s with FrontRip := f } : MelonRipper).NotifyFlush = s.NotifyFlush)
      ∧ (∀ ops : List Op, (∀ op ∈ ops, op.isCommandOrRequest) →
          (s.NotifyFlush.run ops).1.FrontRip = s.BackRip) := by
  have hF : s.NotifyFlush.FrontRip = s.BackRip := by
    rw [NotifyFlush_recording s h]; split <;> rfl
  refine ⟨hF, ?_, ?_, ?_⟩
  · rw [NotifyFlush_recording s h]; split
    · exact Or.inr rfl
    · exact Or.inl rfl
  · intro f
    rw [NotifyFlush_recording s h, NotifyFlush_recording _ (by exact h)]
  · intro ops hops
    rw [(run_after_swap _ ops hops).1, hF]

/-- Witness of C7 on a recording controller that still holds an un-emitted front
rip. -/
theorem no_torn_frame_witness :
    stateRecording.DumpPolys = true ∧ stateRecording.NotifyFlush.FrontRip = stateRecording.BackRip :=
  ⟨by decide, (no_torn_frame stateRecording (by decide)).1⟩

/-- C8, counterexample: the run `RequestRip(1)`, `NotifyFlush`, `RequestRip(-1)`,
`RequestRip(INT_MIN)` leaves a recording controller whose counter is `INT_MIN`;
there the decrement of `NotifyFlush` overflows: the new `RequestCount` is
`INT_MAX`, not the old one minus 1, and the recording is armed again. -/
theorem arming_at_int_min :
    ((fresh.run opsMin).1 = stateMin
        ∧ stateMin.NotifyFlush.RequestCount = 2147483647
        ∧ stateMin.NotifyFlush.DumpPolys = true)
      ∧ ¬ (stateMin.NotifyFlush.RequestCount
            = (if stateMin.DumpPolys then stateMin.RequestCount - 1
               else stateMin.RequestCount)) := by
  decide

/-- C8, amended: for every controller state, after `NotifyFlush` the new
`RequestCount` is unchanged if `DumpPolys` was clear and the old one minus 1 if
`DumpPolys` was set and the old count is an `int` above `INT_MIN` (at `INT_MIN`
the decrement overflows); in every state the new `DumpPolys` is set exactly when
the new `RequestCount` is positive; whenever it is set, `BackRip` is exactly the
24-byte header (the ASCII bytes of `melon ripper v2`, then nine zero bytes); and
when the new `RequestCount` is not positive, `BackRip` is empty if recording was
active and unchanged otherwise. -/
theorem arming_at_boundary (s : MelonRipper) :
    (s.DumpPolys = false → s.NotifyFlush.RequestCount = s.RequestCount)
      ∧ (s.DumpPolys = true → isInt s.RequestCount → -2147483648 < s.RequestCount →
          s.NotifyFlush.RequestCount = s.RequestCount - 1)
      ∧ (s.NotifyFlush.DumpPolys = true ↔ 0 < s.NotifyFlush.RequestCount)
      ∧ (s.NotifyFlush.DumpPolys = true →
          s.NotifyFlush.BackRip
            = [109, 101, 108, 111, 110, 32, 114, 105, 112, 112, 101, 114, 32, 118, 50,
               0, 0, 0, 0, 0, 0, 0, 0, 0]
          ∧ s.NotifyFlush.BackRip.length = 24)
      ∧ (s.NotifyFlush.RequestCount ≤ 0 →
          s.NotifyFlush.BackRip = (if s.DumpPolys then [] else s.BackRip)) := by
  refine ⟨?_, ?_, NotifyFlush_DumpPolys s, ?_, ?_⟩
  · intro hd
    rw [NotifyFlush_RequestCount, hd]
    rfl
  · intro hd hi hmin
    rw [NotifyFlush_RequestCount, hd, if_pos rfl]
    exact wrapInt_of_isInt _ (by unfold isInt at hi ⊢; omega)
  · cases hd : s.DumpPolys with
    | true => rw [NotifyFlush_recording s hd]; split <;> simp [header]
    | false => rw [NotifyFlush_idle s hd]; split <;> simp_all [header]
  · cases hd : s.DumpPolys with
    | true =>
      rw [NotifyFlush_recording s hd]
      split
      · intro h0; simp only at h0; omega
      · simp
    | false =>
      rw [NotifyFlush_idle s hd]
      split
      · intro h0; simp only at h0; omega
      · simp

/-- Witness of the amended C8 on a recording controller with two pending
requests. -/
theorem arming_at_boundary_witness :
    (stateRecording.DumpPolys = true ∧ isInt stateRecording.RequestCount
        ∧ -2147483648 < stateRecording.RequestCount)
      ∧ stateRecording.NotifyFlush.RequestCount = stateRecording.RequestCount - 1 :=
  ⟨by decide, (arming_at_boundary stateRecording).2.1 (by decide) (by decide) (by decide)⟩

/-- C9, counterexample: a controller with `DumpPolys` clear and `RequestCount`
equal to `-1` (reached by `RequestRip(-1)`): after `RequestRip(1)`, with or
without a command, and one `NotifyFlush` the counter is 0, nothing is armed and
`BackRip` is not the header.  The same happens when the addition overflows:
after `RequestRip(INT_MAX)`, a `RequestRip(1)` wraps the counter to `INT_MIN`. -/
theorem deferred_activation_not_armed :
    (fresh.RequestRip (-1)).DumpPolys = false
      ∧ ((((fresh.RequestRip (-1)).RequestRip 1).commands []).NotifyFlush).BackRip ≠ header
      ∧ ((((fresh.RequestRip (-1)).RequestRip 1).commands [.TexParam 0]).NotifyFlush).BackRip
          ≠ header
      ∧ (fresh.RequestRip 2147483647).DumpPolys = false
      ∧ ((((fresh.RequestRip 2147483647).RequestRip 1).commands []).NotifyFlush).BackRip
          ≠ header := by
  decide

/-- C9, amended: `RequestRip(count)` changes only `RequestCount` (`DumpPolys`,
`BackRip` and `FrontRip` are unchanged, so `IsDumping` returns the old flag), to
the old count plus `count` when that sum is an `int`; and for every state with
`DumpPolys` clear, after a `RequestRip(n)` whose sum with the old count lies
between 1 and `INT_MAX` (in particular `n ≥ 1` on a count that is not negative,
without overflow), followed by any sequence of command operations and one
`NotifyFlush`, `FrontRip` is unchanged and `BackRip` is exactly the 24-byte
header. -/
theorem deferred_activation (s : MelonRipper) (n : Int) (cmds : List Command)
    (_hv : ∀ c ∈ cmds, c.Valid) (hd : s.DumpPolys = false) (hp : 1 ≤ s.RequestCount + n)
    (hmax : s.RequestCount + n ≤ 2147483647) :
    (∀ (t : MelonRipper) (count : Int),
        (isInt (t.RequestCount + count) →
            (t.RequestRip count).RequestCount = t.RequestCount + count)
          ∧ (t.RequestRip count).DumpPolys = t.DumpPolys
          ∧ (t.RequestRip count).BackRip = t.BackRip
          ∧ (t.RequestRip count).FrontRip = t.FrontRip
          ∧ (t.RequestRip count).IsDumping = t.IsDumping)
      ∧ (((s.RequestRip n).commands cmds).NotifyFlush).FrontRip = s.FrontRip
      ∧ (((s.RequestRip n).commands cmds).NotifyFlush).BackRip = header := by
  refine ⟨fun t count => ⟨fun hi => wrapInt_of_isInt _ hi, rfl, rfl, rfl, rfl⟩, ?_⟩
  have hrc : (s.RequestRip n).RequestCount = s.RequestCount + n :=
    wrapInt_of_isInt _ (by unfold isInt; omega)
  rw [commands_eq, NotifyFlush_idle _ (by exact hd), if_pos (by simp only [hrc]; omega)]
  exact ⟨rfl, rfl⟩

/-- Witness of the amended C9: a request of 1 on an idle controller that holds a
front rip, followed by the commands `cmdsA`. -/
theorem deferred_activation_witness :
    ((∀ c ∈ cmdsA, c.Valid) ∧ stateIdle.DumpPolys = false ∧ 1 ≤ stateIdle.RequestCount + 1
        ∧ stateIdle.RequestCount + 1 ≤ 2147483647)
      ∧ (((stateIdle.RequestRip 1).commands cmdsA).NotifyFlush).FrontRip = stateIdle.FrontRip
      ∧ (((stateIdle.RequestRip 1).commands cmdsA).NotifyFlush).BackRip = header :=
  ⟨by decide,
   (deferred_activation stateIdle 1 cmdsA (by decide) (by decide) (by decide)
      (by decide)).2⟩

/-! ## Display events -/

/-- C10: `NotifyRender` with a non-empty `FrontRip`, for every environment `E`:
the byte sequence handed to `SaveFrontRipToFile` is the old `FrontRip` followed by
one snapshot block of `E` (`VRAM`, then `DISP`, then `TOON`; 622720 bytes), it is
handed over exactly once, `FrontRip` is empty afterwards, and `RequestCount`,
`DumpPolys` and `BackRip` are unchanged. -/
theorem notifyRender_emits_once (s : MelonRipper) (E : Host) (h : s.FrontRip ≠ []) :
    (s.NotifyRender E).2.map Emission.bytes
        = [s.FrontRip ++ (vram E.NDS.GPU ++ disp E.NDS.GPU ++ toon E.NDS.GPU)]
      ∧ (vram E.NDS.GPU ++ disp E.NDS.GPU ++ toon E.NDS.GPU).length = 622720
      ∧ (s.NotifyRender E).1.FrontRip = []
      ∧ (s.NotifyRender E).1.RequestCount = s.RequestCount
      ∧ (s.NotifyRender E).1.DumpPolys = s.DumpPolys
      ∧ (s.NotifyRender E).1.BackRip = s.BackRip := by
  refine ⟨NotifyRender_bytes s E h, snapshot_length E, ?_⟩
  rw [NotifyRender_state]
  exact ⟨rfl, rfl, rfl, rfl⟩

/-- Witness of C10 on a controller holding a front rip, with `hostB`, whose
`fopen` fails. -/
theorem notifyRender_emits_once_witness :
    stateIdle.FrontRip ≠ [] ∧
      (stateIdle.NotifyRender hostB).2.map Emission.bytes
        = [stateIdle.FrontRip
            ++ (vram hostB.NDS.GPU ++ disp hostB.NDS.GPU ++ toon hostB.NDS.GPU)] :=
  ⟨by decide, (notifyRender_emits_once stateIdle hostB (by decide)).1⟩

/-- C11: `NotifyRender` with an empty `FrontRip` leaves every member of the
controller unchanged and hands nothing to `SaveFrontRipToFile`; and for every
state a second `NotifyRender` (with any environment) after a first one leaves the
state as the first one left it and emits nothing. -/
theorem notifyRender_empty_noop (s : MelonRipper) (E1 E2 : Host) :
    (s.FrontRip = [] → s.NotifyRender E1 = (s, []))
      ∧ ((s.NotifyRender E1).1.NotifyRender E2).1 = (s.NotifyRender E1).1
      ∧ ((s.NotifyRender E1).1.NotifyRender E2).2 = [] := by
  refine ⟨NotifyRender_empty s E1, ?_⟩
  have h : (s.NotifyRender E1).1.FrontRip = [] := by rw [NotifyRender_state]
  rw [NotifyRender_empty _ E2 h]
  exact ⟨rfl, rfl⟩

/-- Witness of C11 on a recording controller whose front rip is empty. -/
theorem notifyRender_empty_noop_witness :
    stateArmed.FrontRip = [] ∧ stateArmed.NotifyRender hostA = (stateArmed, []) :=
  ⟨rfl, (notifyRender_empty_noop stateArmed hostA hostB).1 rfl⟩

/-- C12: for every controller state and every emulator state, the controller
after `NotifyRender` is the same whatever `fopen` and `fwrite` return, and so are
the bytes handed over; in every case `FrontRip` is cleared, `RequestCount` is
what it was, `SaveFrontRipToFile` is called at most once, and a further
`NotifyRender` hands nothing over (no retry).  Only the flag `ok` differs. -/
theorem emission_failure_keeps_state (s : MelonRipper) (N : NDS) (fo1 fw1 fo2 fw2 : Bool) :
    (s.NotifyRender ⟨N, fo1, fw1⟩).1 = (s.NotifyRender ⟨N, fo2, fw2⟩).1
      ∧ (s.NotifyRender ⟨N, fo1, fw1⟩).2.map Emission.bytes
          = (s.NotifyRender ⟨N, fo2, fw2⟩).2.map Emission.bytes
      ∧ (s.NotifyRender ⟨N, fo1, fw1⟩).1.FrontRip = []
      ∧ (s.NotifyRender ⟨N, fo1, fw1⟩).1.RequestCount = s.RequestCount
      ∧ (s.NotifyRender ⟨N, fo1, fw1⟩).1.DumpPolys = s.DumpPolys
      ∧ (s.NotifyRender ⟨N, fo1, fw1⟩).1.BackRip = s.BackRip
      ∧ (s.NotifyRender ⟨N, fo1, fw1⟩).2.length ≤ 1
      ∧ (∀ E : Host, ((s.NotifyRender ⟨N, fo1, fw1⟩).1.NotifyRender E).2 = [])
      ∧ (s.FrontRip ≠ [] →
          (s.NotifyRender ⟨N, fo1, fw1⟩).2.map Emission.ok = [fo1 && fw1]) := by
  refine ⟨by rw [NotifyRender_state, NotifyRender_state], ?_, by rw [NotifyRender_state],
    by rw [NotifyRender_state], by rw [NotifyRender_state], by rw [NotifyRender_state],
    ?_, ?_, ?_⟩
  · by_cases h : s.FrontRip = []
    · rw [NotifyRender_empty _ _ h, NotifyRender_empty _ _ h]
    · rw [NotifyRender_bytes _ _ h, NotifyRender_bytes _ _ h]
      rfl
  · by_cases h : s.FrontRip = []
    · rw [NotifyRender_empty _ _ h]; simp
    · rw [NotifyRender_nonempty _ _ h]; simp
  · intro E
    rw [NotifyRender_empty _ E (by rw [NotifyRender_state])]
  · intro h
    rw [NotifyRender_nonempty _ _ h]
    rfl

/-- C13: `Reset` from any state yields the freshly constructed state
(`RequestCount` 0, `DumpPolys` false, both rips empty), so every subsequent
sequence of operations gives the same states and the same emitted artifacts as
on a freshly constructed controller. -/
theorem reset_is_fresh (s : MelonRipper) (ops : List Op) :
    s.Reset = fresh
      ∧ (s.Reset.RequestCount = 0 ∧ s.Reset.DumpPolys = false ∧ s.Reset.BackRip = []
          ∧ s.Reset.FrontRip = [])
      ∧ s.Reset.run ops = fresh.run ops
      ∧ s.run (.Reset :: ops) = fresh.run ops := by
  have h : s.Reset = fresh := rfl
  refine ⟨h, ⟨rfl, rfl, rfl, rfl⟩, by rw [h], ?_⟩
  simp [run, step, h]

/-- C20, counterexample: the run `RequestRip(1)`, `NotifyFlush`,
`RequestRip(INT_MAX)` has only requests that are not negative, yet it ends with
`DumpPolys` set and the `int` counter wrapped to `INT_MIN`. -/
theorem recording_with_wrapped_counter :
    ((∀ op ∈ opsWrap, op.countNonneg)
        ∧ (fresh.run opsWrap).1.DumpPolys = true
        ∧ (fresh.run opsWrap).1.RequestCount = -2147483648)
      ∧ ¬ (((fresh.run opsWrap).1.DumpPolys = true → 1 ≤ (fresh.run opsWrap).1.RequestCount)
            ∧ 0 ≤ (fresh.run opsWrap).1.RequestCount) := by
  decide

/-- C20, amended: when every `RequestRip` of the sequence is given a count that
is not negative and the requested counts sum to at most `INT_MAX = 2147483647`,
in the state reached from a freshly constructed controller by any sequence of
public operations `DumpPolys` set implies `RequestCount ≥ 1`, and
`RequestCount ≥ 0` in any case: the decrement in `NotifyFlush` never takes the
counter below zero. -/
theorem recording_implies_pending (ops : List Op) (hops : ∀ op ∈ ops, op.countNonneg)
    (hsum : requested ops ≤ 2147483647) :
    ((fresh.run ops).1.DumpPolys = true → 1 ≤ (fresh.run ops).1.RequestCount)
      ∧ 0 ≤ (fresh.run ops).1.RequestCount :=
  have h := run_pending fresh ops hops ⟨fun h => by simp [fresh] at h, by simp [fresh]⟩
    (by simp only [fresh]; omega)
  ⟨h.1, h.2.1⟩

/-- Witness of the amended C20 on a run that ends while recording. -/
theorem recording_implies_pending_witness :
    ((∀ op ∈ opsC, op.countNonneg) ∧ requested opsC ≤ 2147483647)
      ∧ (fresh.run opsC).1.DumpPolys = true
      ∧ 1 ≤ (fresh.run opsC).1.RequestCount :=
  ⟨by decide, by decide,
   (recording_implies_pending opsC (by decide) (by decide)).1 (by decide)⟩

/-! ## Record layouts -/

theorem map_range_getD {β : Type} (f : Vertex → β) (l : List Vertex) (n : Nat)
    (h : n ≤ l.length) :
    (List.range n).map (fun i => f (l.getD i default)) = (l.take n).map f := by
  induction n with
  | zero => simp
  | succ m ih =>
    have hm : m < l.length := h
    rw [List.range_succ, List.map_append, ih (Nat.le_of_lt hm), List.take_succ,
      List.map_append]
    simp [List.getD, List.getElem?_eq_getElem hm]

theorem vertex_length (v : Vertex) : (vertex v).length = 28 := rfl

/-- C16: for `nverts` equal to 3 or 4 and every vertex array holding that many
vertices, `WritePolygon` keeps the bytes of the rip as a prefix and appends
`4 + 28 * nverts` bytes: the ASCII tag `TRI ` when `nverts = 3` and `QUAD` when
`nverts = 4`, then for each vertex 0 to `nverts - 1` in order `WorldPosition[0..2]`
and `Color[0..2]` as 32-bit little-endian values modulo `2 ^ 32`, then
`TexCoords[0..1]` as 16-bit little-endian values modulo `2 ^ 16`. -/
theorem polygon_record_layout (rip : VecU8) (verts : List Vertex) (nverts : Nat)
    (hn : nverts = 3 ∨ nverts = 4) (hlen : nverts ≤ verts.length) :
    WritePolygon rip verts nverts
        = rip ++ (if nverts = 3 then [84, 82, 73, 32] else [81, 85, 65, 68])
            ++ ((verts.take nverts).map (fun v =>
                le32 ((v.WorldPosition0 % 2 ^ 32).toNat)
                  ++ le32 ((v.WorldPosition1 % 2 ^ 32).toNat)
                  ++ le32 ((v.WorldPosition2 % 2 ^ 32).toNat)
                  ++ le32 ((v.Color0 % 2 ^ 32).toNat)
                  ++ le32 ((v.Color1 % 2 ^ 32).toNat)
                  ++ le32 ((v.Color2 % 2 ^ 32).toNat)
                  ++ le16 ((v.TexCoords0 % 2 ^ 16).toNat)
                  ++ le16 ((v.TexCoords1 % 2 ^ 16).toNat))).flatten
      ∧ (WritePolygon rip verts nverts).length = rip.length + (4 + 28 * nverts)
      ∧ (∀ x : Nat, le32 x = [x % 256, x / 2 ^ 8 % 256, x / 2 ^ 16 % 256, x / 2 ^ 24 % 256])
      ∧ (∀ x : Nat, le16 x = [x % 256, x / 2 ^ 8 % 256]) := by
  refine ⟨?_, ?_, fun _ => rfl, fun _ => rfl⟩
  · rw [WritePolygon_eq, ← map_range_getD _ verts nverts hlen]
    simp only [record, List.append_assoc]
    rfl
  · rw [WritePolygon_eq, List.length_append]
    rcases hn with h | h <;> subst h <;> rfl

/-- Witness of C16: a quad appended to a rip that holds the header. -/
theorem polygon_record_layout_witness :
    ((4 = 3 ∨ 4 = 4) ∧ 4 ≤ quadA.length)
      ∧ (WritePolygon header quadA 4).length = header.length + (4 + 28 * 4) :=
  ⟨by decide, (polygon_record_layout header quadA 4 (by decide) (by decide)).2.1⟩

/-- C17: for every 32-bit word `x` and every rip, `WriteTexParam`,
`WriteTexPalette` and `WritePolygonAttr` keep the bytes of the rip as a prefix and
append 8 bytes: the ASCII tag `TPRM`, `TPLT` or `PATR`, then `x` in little-endian
order; the four payload bytes `b0 + 2^8 b1 + 2^16 b2 + 2^24 b3` give `x` back. -/
theorem word_record_layout (rip : VecU8) (x : Nat) (hx : x < 2 ^ 32) :
    WriteTexParam rip x
        = rip ++ [84, 80, 82, 77, x % 256, x / 2 ^ 8 % 256, x / 2 ^ 16 % 256, x / 2 ^ 24 % 256]
      ∧ WriteTexPalette rip x
        = rip ++ [84, 80, 76, 84, x % 256, x / 2 ^ 8 % 256, x / 2 ^ 16 % 256, x / 2 ^ 24 % 256]
      ∧ WritePolygonAttr rip x
        = rip ++ [80, 65, 84, 82, x % 256, x / 2 ^ 8 % 256, x / 2 ^ 16 % 256, x / 2 ^ 24 % 256]
      ∧ x % 256 + 2 ^ 8 * (x / 2 ^ 8 % 256) + 2 ^ 16 * (x / 2 ^ 16 % 256)
          + 2 ^ 24 * (x / 2 ^ 24 % 256) = x := by
  refine ⟨by rw [WriteTexParam_eq]; rfl, by rw [WriteTexPalette_eq]; rfl,
    by rw [WritePolygonAttr_eq]; rfl, ?_⟩
  omega

/-- Witness of C17 on the word `0xDEADBEEF`. -/
theorem word_record_layout_witness :
    0xDEADBEEF < 2 ^ 32 ∧
      WriteTexParam header 0xDEADBEEF = header ++ [84, 80, 82, 77, 0xEF, 0xBE, 0xAD, 0xDE] :=
  ⟨by decide, (word_record_layout header 0xDEADBEEF (by decide)).1⟩

/-- C18: for every emulator state, `FinishFrontRip` keeps the bytes of `FrontRip`
as a prefix and appends 622720 bytes, in this order: the tag `VRAM`; the 4 entries
of `VRAMMap_Texture`, then the 8 entries of `VRAMMap_TexPal`, each 32-bit
little-endian; the contents of the banks A, B, C, D (131072 bytes each), E (65536
bytes), F and G (16384 bytes each); the tag `DISP` and the 32-bit little-endian
display-control word; the tag `TOON` and the 32 entries of the toon table in
index order, each 16-bit little-endian.  The other members are unchanged. -/
theorem snapshot_block_layout (s : MelonRipper) (N : NDS) :
    (s.FinishFrontRip N).FrontRip
        = s.FrontRip
          ++ ([86, 82, 65, 77]
            ++ ((List.range 4).map (fun i => le32 (N.GPU.VRAMMap_Texture i))).flatten
            ++ ((List.range 8).map (fun i => le32 (N.GPU.VRAMMap_TexPal i))).flatten
            ++ (List.range 131072).map N.GPU.VRAM_A
            ++ (List.range 131072).map N.GPU.VRAM_B
            ++ (List.range 131072).map N.GPU.VRAM_C
            ++ (List.range 131072).map N.GPU.VRAM_D
            ++ (List.range 65536).map N.GPU.VRAM_E
            ++ (List.range 16384).map N.GPU.VRAM_F
            ++ (List.range 16384).map N.GPU.VRAM_G
            ++ ([68, 73, 83, 80] ++ le32 N.GPU.GPU3D.RenderDispCnt)
            ++ ([84, 79, 79, 78]
              ++ ((List.range 32).map (fun i => le16 (N.GPU.GPU3D.RenderToonTable i))).flatten))
      ∧ (s.FinishFrontRip N).FrontRip.length = s.FrontRip.length + 622720
      ∧ (s.FinishFrontRip N).BackRip = s.BackRip
      ∧ (s.FinishFrontRip N).RequestCount = s.RequestCount
      ∧ (s.FinishFrontRip N).DumpPolys = s.DumpPolys := by
  have h := FinishFrontRip_eq s ⟨N, true, true⟩
  simp only [] at h
  rw [h]
  refine ⟨?_, ?_, rfl, rfl, rfl⟩
  · simp only [snapshot, vram, disp, toon, table, bank, tagVRAM, tagDISP, tagTOON,
      List.append_assoc]
  · simp only [List.length_append, snapshot_length]

/-! ## The title in the file name -/

theorem Convert_ne_zero_iff (c : Nat) : ConvertToFilenameChar c ≠ 0 ↔ isAlnum c = true := by
  unfold ConvertToFilenameChar isAlnum
  simp only [Bool.or_eq_true, Bool.and_eq_true, decide_eq_true_eq]
  split
  · constructor
    · intro _; omega
    · intro _; omega
  · split
    · constructor
      · intro _; omega
      · intro _; omega
    · constructor
      · intro h; exact absurd rfl h
      · intro h; omega

theorem Convert_eq_toLower (c : Nat) (h : isAlnum c = true) :
    ConvertToFilenameChar c = toLower c := by
  unfold isAlnum at h
  simp only [Bool.or_eq_true, Bool.and_eq_true, decide_eq_true_eq] at h
  unfold ConvertToFilenameChar toLower
  split
  · split
    · omega
    · rfl
  · split
    · omega
    · omega

theorem toLower_mem_range (c : Nat) (h : isAlnum c = true) :
    (48 ≤ toLower c ∧ toLower c ≤ 57) ∨ (97 ≤ toLower c ∧ toLower c ≤ 122) := by
  unfold isAlnum at h
  simp only [Bool.or_eq_true, Bool.and_eq_true, decide_eq_true_eq] at h
  unfold toLower
  split <;> omega

theorem title_loop_eq (g : Nat → Nat) (l : List Nat) :
    (l.map (fun i => if ConvertToFilenameChar (g i) ≠ 0 then [ConvertToFilenameChar (g i)]
        else [])).flatten = sanitize (l.map g) := by
  induction l with
  | nil => rfl
  | cons a l ih =>
    rw [List.map_cons, List.flatten_cons, ih]
    unfold sanitize
    rw [List.map_cons]
    by_cases h : isAlnum (g a) = true
    · rw [if_pos ((Convert_ne_zero_iff _).2 h), List.filter_cons_of_pos h, List.map_cons,
        Convert_eq_toLower _ h]
      rfl
    · rw [if_neg (fun hc => h ((Convert_ne_zero_iff _).1 hc)), List.filter_cons_of_neg h]
      rfl

theorem sanitize_length_le (l : List Nat) : (sanitize l).length ≤ l.length := by
  unfold sanitize
  rw [List.length_map]
  exact List.length_filter_le _ _

theorem sanitize_mem_range (l : List Nat) (c : Nat) (h : c ∈ sanitize l) :
    (48 ≤ c ∧ c ≤ 57) ∨ (97 ≤ c ∧ c ≤ 122) := by
  unfold sanitize at h
  rw [List.mem_map] at h
  obtain ⟨d, hd, rfl⟩ := h
  exact toLower_mem_range d (List.mem_filter.1 hd).2

theorem GetGameTitleForFilename_none (N : NDS) (h : N.NDSCartSlot = none) :
    GetGameTitleForFilename N = placeholder := by
  unfold GetGameTitleForFilename
  rw [h]
  rfl

theorem GetGameTitleForFilename_some (N : NDS) (g : Nat → Nat) (h : N.NDSCartSlot = some g) :
    GetGameTitleForFilename N
      = if sanitize ((List.range 12).map g) = [] then placeholder
        else sanitize ((List.range 12).map g) := by
  unfold GetGameTitleForFilename
  rw [h]
  simp only []
  rw [forLoop_eq 12 _
    (fun i => if ConvertToFilenameChar (g i) ≠ 0 then [ConvertToFilenameChar (g i)] else [])
    (fun r i => by
      by_cases hc : ConvertToFilenameChar (g i) ≠ 0
      · simp only [if_pos hc]
      · simp only [if_neg hc, List.append_nil]), List.nil_append, title_loop_eq]
  cases hs : sanitize ((List.range 12).map g) with
  | nil => rfl
  | cons c t =>
    have hc : c ≠ 0 := by
      have := sanitize_mem_range ((List.range 12).map g) c (by rw [hs]; exact List.mem_cons_self _ _)
      omega
    simp [hc]

/-- C19, counterexample: a cartridge titled `MELONRIP` (padded with spaces) has
letters in its title, yet its file-name title is the placeholder `melonrip`: the
title equals the placeholder not only when there is no cartridge or no letter or
digit. -/
theorem title_placeholder_with_letters :
    (GetGameTitleForFilename ndsMelonrip = placeholder
        ∧ ndsMelonrip.NDSCartSlot.isSome = true
        ∧ (∃ g, ndsMelonrip.NDSCartSlot = some g ∧ isAlnum (g 0) = true))
      ∧ ¬ (GetGameTitleForFilename ndsMelonrip = placeholder ↔
            (ndsMelonrip.NDSCartSlot = none
              ∨ ∃ g, ndsMelonrip.NDSCartSlot = some g ∧ ∀ i < 12, isAlnum (g i) = false)) := by
  have h1 : GetGameTitleForFilename ndsMelonrip = placeholder := by decide
  refine ⟨⟨h1, rfl, _, rfl, by decide⟩, fun h => ?_⟩
  rcases h.1 h1 with hn | ⟨g, hg, ha⟩
  · exact absurd hn (by simp [ndsMelonrip])
  · have hg2 : g = (fun i => [77, 69, 76, 79, 78, 82, 73, 80].getD i 32) :=
      (Option.some.inj hg).symm
    have h0 := ha 0 (by decide)
    rw [hg2] at h0
    exact absurd h0 (by decide)

/-- C19, amended: for every emulator state the title produced by
`GetGameTitleForFilename` is not empty, at most 12 characters long and made of
characters in `[0-9a-z]` only; with a cartridge whose 12-character `GameTitle`
holds an ASCII letter or digit it is the subsequence of those characters, in
their original order, uppercase mapped to lowercase; and it is the placeholder
`melonrip` when there is no cartridge or no character of the title is an ASCII
letter or digit (and also when the sanitized title itself reads `melonrip`). -/
theorem title_for_filename (N : NDS) :
    GetGameTitleForFilename N ≠ []
      ∧ (GetGameTitleForFilename N).length ≤ 12
      ∧ (∀ c ∈ GetGameTitleForFilename N, (48 ≤ c ∧ c ≤ 57) ∨ (97 ≤ c ∧ c ≤ 122))
      ∧ (∀ g, N.NDSCartSlot = some g → (∃ i, i < 12 ∧ isAlnum (g i) = true) →
          GetGameTitleForFilename N = sanitize ((List.range 12).map g))
      ∧ ((N.NDSCartSlot = none
            ∨ ∃ g, N.NDSCartSlot = some g ∧ ∀ i < 12, isAlnum (g i) = false) →
          GetGameTitleForFilename N = placeholder) := by
  have hp : placeholder ≠ [] ∧ placeholder.length ≤ 12
      ∧ ∀ c ∈ placeholder, (48 ≤ c ∧ c ≤ 57) ∨ (97 ≤ c ∧ c ≤ 122) := by decide
  cases hN : N.NDSCartSlot with
  | none =>
    rw [GetGameTitleForFilename_none N hN]
    refine ⟨hp.1, hp.2.1, hp.2.2, fun g hg => by simp at hg, fun _ => rfl⟩
  | some g0 =>
    rw [GetGameTitleForFilename_some N g0 hN]
    have hlen : (sanitize ((List.range 12).map g0)).length ≤ 12 := by
      have := sanitize_length_le ((List.range 12).map g0)
      simpa using this
    refine ⟨?_, ?_, ?_, ?_, ?_⟩
    · split
      · exact hp.1
      · assumption
    · split
      · exact hp.2.1
      · exact hlen
    · split
      · exact hp.2.2
      · exact fun c hc => sanitize_mem_range _ c hc
    · intro g hg ⟨i, hi, ha⟩
      have hgg : g0 = g := Option.some.inj hg
      subst hgg
      have hne : sanitize ((List.range 12).map g0) ≠ [] := by
        intro he
        unfold sanitize at he
        rw [List.map_eq_nil_iff, List.filter_eq_nil_iff] at he
        exact he (g0 i) (List.mem_map.2 ⟨i, List.mem_range.2 hi, rfl⟩) ha
      rw [if_neg hne]
    · intro h
      rcases h with hn | ⟨g, hg, ha⟩
      · simp at hn
      · have hgg : g0 = g := Option.some.inj hg
        subst hgg
        have he : sanitize ((List.range 12).map g0) = [] := by
          unfold sanitize
          rw [List.map_eq_nil_iff, List.filter_eq_nil_iff]
          intro a hmem
          obtain ⟨i, hi, rfl⟩ := List.mem_map.1 hmem
          rw [ha i (List.mem_range.1 hi)]
          simp
        rw [if_pos he]

/-! ## Every emitted artifact is well formed -/

theorem records_append (a b : List Command) : records (a ++ b) = records a ++ records b := by
  simp [records]

theorem handovers_snd (s : MelonRipper) (ops : List Op) :
    (handovers s ops).map Prod.snd = s.emitted ops := by
  unfold emitted
  induction ops generalizing s with
  | nil => rfl
  | cons op ops ih =>
    cases op with
    | NotifyRender E =>
      simp only [handovers, run, step, List.map_append, List.map_map, ih]
      rfl
    | RequestRip count => simp only [handovers, run, step, ih, List.nil_append]
    | Command c => simp only [handovers, run, step, ih, List.nil_append]
    | NotifyFlush => simp only [handovers, run, step, ih, List.nil_append]
    | Reset => simp only [handovers, run, step, ih, List.nil_append]

theorem IsCapture_header (P : Command → Prop) : IsCapture P header :=
  ⟨[], fun _ h => absurd h (List.not_mem_nil _), by simp [records]⟩

theorem step_CaptureInv (P : Command → Prop) (s : MelonRipper) (op : Op)
    (hop : ∀ c, op = .Command c → P c) (h : CaptureInv P s) :
    CaptureInv P (s.step op).1 := by
  cases op with
  | RequestRip count => exact h
  | Command c =>
    simp only [step, command_eq]
    refine ⟨h.1, fun hd => ?_⟩
    obtain ⟨cmds, hP, hb⟩ := h.2 hd
    refine ⟨cmds ++ [c], ?_, ?_⟩
    · intro d hdm
      rcases List.mem_append.1 hdm with h1 | h1
      · exact hP d h1
      · rw [List.mem_singleton.1 h1]; exact hop c rfl
    · simp only [hb, records_append, List.append_assoc]
      simp [records]
  | NotifyFlush =>
    simp only [step]
    cases hd : s.DumpPolys with
    | true =>
      rw [NotifyFlush_recording s hd]
      split
      · exact ⟨Or.inr (h.2 hd), fun _ => IsCapture_header P⟩
      · exact ⟨Or.inr (h.2 hd), fun hf => by simp at hf⟩
    | false =>
      rw [NotifyFlush_idle s hd]
      split
      · exact ⟨h.1, fun _ => IsCapture_header P⟩
      · exact ⟨h.1, fun hf => by rw [hd] at hf; simp at hf⟩
  | NotifyRender E =>
    simp only [step, NotifyRender_state]
    exact ⟨Or.inl rfl, h.2⟩
  | Reset =>
    simp only [step, Reset]
    exact ⟨Or.inl rfl, fun hf => by simp at hf⟩

theorem run_handovers (P : Command → Prop) (ops : List Op) (s : MelonRipper)
    (hops : ∀ c, Op.Command c ∈ ops → P c) (h : CaptureInv P s) :
    ∀ p ∈ handovers s ops, Op.NotifyRender p.1 ∈ ops ∧
      ∃ cmds : List Command, (∀ c ∈ cmds, P c) ∧ p.2 = header ++ records cmds ++ snapshot p.1 := by
  induction ops generalizing s with
  | nil => intro p hp; simp [handovers] at hp
  | cons op ops ih =>
    have hinv := step_CaptureInv P s op
      (fun c hc => hops c (by rw [hc]; exact List.mem_cons_self _ _)) h
    have ih2 := ih (s.step op).1 (fun c hc => hops c (List.mem_cons_of_mem _ hc)) hinv
    have lift : ∀ p ∈ handovers (s.step op).1 ops, Op.NotifyRender p.1 ∈ op :: ops ∧
        ∃ cmds : List Command, (∀ c ∈ cmds, P c)
          ∧ p.2 = header ++ records cmds ++ snapshot p.1 :=
      fun p hp => ⟨List.mem_cons_of_mem _ (ih2 p hp).1, (ih2 p hp).2⟩
    cases op with
    | NotifyRender E =>
      intro p hp
      simp only [handovers] at hp
      rcases List.mem_append.1 hp with h1 | h1
      · by_cases hf : s.FrontRip = []
        · rw [NotifyRender_empty s E hf] at h1
          simp at h1
        · rw [NotifyRender_nonempty s E hf] at h1
          simp only [List.map_cons, List.map_nil, List.mem_singleton] at h1
          subst h1
          refine ⟨List.mem_cons_self _ _, ?_⟩
          rcases h.1 with h0 | ⟨cmds, hP, hb⟩
          · exact absurd h0 hf
          · exact ⟨cmds, hP, by simp only [hb]⟩
      · exact lift p h1
    | RequestRip count => exact lift
    | Command c => exact lift
    | NotifyFlush => exact lift
    | Reset => exact lift

theorem artifact_parts (cmds : List Command) (E : Host) (b : VecU8)
    (h : b = header ++ records cmds ++ snapshot E) :
    b.take 24 = header
      ∧ b.drop (b.length - 622720) = snapshot E
      ∧ (b.drop 24).take (b.length - 24 - 622720) = records cmds := by
  have hl : b.length = 24 + (records cmds).length + 622720 := by
    rw [h, List.length_append, List.length_append, header_length, snapshot_length]
  refine ⟨?_, ?_, ?_⟩
  · rw [h, List.append_assoc]
    exact List.take_left' header_length
  · rw [hl, h]
    exact List.drop_left' (by rw [List.length_append, header_length]; omega)
  · rw [hl, h, List.append_assoc, List.drop_left' header_length]
    exact List.take_left' (by omega)

/-- C14: for every sequence of public operations applied to a freshly
constructed controller (any interleaving: commands while not recording, repeated
flushes without a display, `Reset`), every byte sequence handed to
`SaveFrontRipToFile` is the header, then the records of commands submitted in
the sequence, then one snapshot block of the host passed to the `NotifyRender`
that handed it over: its first 24 bytes are the header, its last 622720 bytes are
that snapshot, and what lies between is a concatenation of command records. -/
theorem artifacts_well_formed (ops : List Op) :
    (handovers fresh ops).map Prod.snd = fresh.emitted ops
      ∧ ∀ p ∈ handovers fresh ops,
          Op.NotifyRender p.1 ∈ ops
            ∧ ∃ cmds : List Command,
                (∀ c ∈ cmds, Op.Command c ∈ ops)
                  ∧ p.2 = header ++ records cmds ++ snapshot p.1
                  ∧ p.2.take 24 = header
                  ∧ p.2.drop (p.2.length - 622720) = snapshot p.1
                  ∧ (p.2.drop 24).take (p.2.length - 24 - 622720) = records cmds := by
  refine ⟨handovers_snd fresh ops, fun p hp => ?_⟩
  have h := run_handovers (fun c => Op.Command c ∈ ops) ops fresh (fun c hc => hc)
    ⟨Or.inl rfl, fun hf => by simp [fresh] at hf⟩ p hp
  obtain ⟨hr, cmds, hP, hb⟩ := h
  exact ⟨hr, cmds, hP, hb, artifact_parts cmds p.1 p.2 hb⟩

/-! ## Unique decodability -/

theorem le32_inj (x y : Nat) (hx : x < 2 ^ 32) (hy : y < 2 ^ 32) (h : le32 x = le32 y) :
    x = y := by
  simp only [le32, List.cons.injEq, and_true] at h
  omega

theorem le16_inj (x y : Nat) (hx : x < 2 ^ 16) (hy : y < 2 ^ 16) (h : le16 x = le16 y) :
    x = y := by
  simp only [le16, List.cons.injEq, and_true] at h
  omega

theorem toU32_lt (x : Int) : toU32 x < 2 ^ 32 := by
  unfold toU32
  omega

theorem toU16_lt (x : Int) : toU16 x < 2 ^ 16 := by
  unfold toU16
  omega

theorem toU32_inj (x y : Int) (hx : isS32 x) (hy : isS32 y) (h : toU32 x = toU32 y) :
    x = y := by
  unfold isS32 at hx hy
  unfold toU32 at h
  omega

theorem toU16_inj (x y : Int) (hx : isS16 x) (hy : isS16 y) (h : toU16 x = toU16 y) :
    x = y := by
  unfold isS16 at hx hy
  unfold toU16 at h
  omega

theorem le32_toU32_inj (x y : Int) (hx : isS32 x) (hy : isS32 y)
    (h : le32 (toU32 x) = le32 (toU32 y)) : x = y :=
  toU32_inj x y hx hy (le32_inj _ _ (toU32_lt x) (toU32_lt y) h)

theorem le16_toU16_inj (x y : Int) (hx : isS16 x) (hy : isS16 y)
    (h : le16 (toU16 x) = le16 (toU16 y)) : x = y :=
  toU16_inj x y hx hy (le16_inj _ _ (toU16_lt x) (toU16_lt y) h)

theorem vertex_inj (v w : Vertex) (hv : v.Typed) (hw : w.Typed) (h : vertex v = vertex w) :
    v = w := by
  unfold vertex at h
  obtain ⟨h, h8⟩ := List.append_inj' h rfl
  obtain ⟨h, h7⟩ := List.append_inj' h rfl
  obtain ⟨h, h6⟩ := List.append_inj' h rfl
  obtain ⟨h, h5⟩ := List.append_inj' h rfl
  obtain ⟨h, h4⟩ := List.append_inj' h rfl
  obtain ⟨h, h3⟩ := List.append_inj' h rfl
  obtain ⟨h1, h2⟩ := List.append_inj' h rfl
  obtain ⟨a1, a2, a3, a4, a5, a6, a7, a8⟩ := hv
  obtain ⟨b1, b2, b3, b4, b5, b6, b7, b8⟩ := hw
  cases v
  cases w
  simp only [Vertex.mk.injEq]
  exact ⟨le32_toU32_inj _ _ a1 b1 h1, le32_toU32_inj _ _ a2 b2 h2,
    le32_toU32_inj _ _ a3 b3 h3, le32_toU32_inj _ _ a4 b4 h4, le32_toU32_inj _ _ a5 b5 h5,
    le32_toU32_inj _ _ a6 b6 h6, le16_toU16_inj _ _ a7 b7 h7, le16_toU16_inj _ _ a8 b8 h8⟩

theorem vertices_inj (l1 l2 : List Vertex) (hlen : l1.length = l2.length)
    (h1 : ∀ v ∈ l1, v.Typed) (h2 : ∀ v ∈ l2, v.Typed) (rest1 rest2 : List Nat)
    (h : (l1.map vertex).flatten ++ rest1 = (l2.map vertex).flatten ++ rest2) :
    l1 = l2 ∧ rest1 = rest2 := by
  induction l1 generalizing l2 with
  | nil =>
    cases l2 with
    | nil => exact ⟨rfl, by simpa using h⟩
    | cons w l2 => simp at hlen
  | cons v l1 ih =>
    cases l2 with
    | nil => simp at hlen
    | cons w l2 =>
      simp only [List.map_cons, List.flatten_cons, List.append_assoc] at h
      obtain ⟨hv, hrest⟩ := List.append_inj h rfl
      have hvw := vertex_inj v w (h1 v (List.mem_cons_self _ _)) (h2 w (List.mem_cons_self _ _)) hv
      obtain ⟨hl, hr⟩ := ih l2 (by simpa using hlen)
        (fun x hx => h1 x (List.mem_cons_of_mem _ hx))
        (fun x hx => h2 x (List.mem_cons_of_mem _ hx)) hrest
      exact ⟨by rw [hvw, hl], hr⟩

theorem record_eq_tag_payload (c : Command) : record c = tagOf c ++ payload c := by
  cases c <;> rfl

theorem tagOf_length (c : Command) : (tagOf c).length = 4 := by
  cases c with
  | Polygon verts nverts => simp only [tagOf]; split <;> rfl
  | TexParam x => rfl
  | TexPalette x => rfl
  | PolygonAttr x => rfl

theorem tagOf_ne_VRAM (c : Command) : tagVRAM ≠ tagOf c := by
  cases c with
  | Polygon verts nverts => simp only [tagOf]; split <;> decide
  | TexParam x => simp only [tagOf]; decide
  | TexPalette x => simp only [tagOf]; decide
  | PolygonAttr x => simp only [tagOf]; decide

theorem payload_polygon (verts : List Vertex) (nverts : Nat) (h : verts.length = nverts) :
    payload (.Polygon verts nverts) = (verts.map vertex).flatten := by
  simp only [payload]
  rw [map_range_getD vertex verts nverts (by omega), List.take_of_length_le (by omega)]

theorem command_inj (c1 c2 : Command) (h1 : c1.Typed) (h2 : c2.Typed) (rest1 rest2 : List Nat)
    (h : record c1 ++ rest1 = record c2 ++ rest2) : c1 = c2 ∧ rest1 = rest2 := by
  rw [record_eq_tag_payload, record_eq_tag_payload, List.append_assoc, List.append_assoc] at h
  obtain ⟨htag, hrest⟩ := List.append_inj h (by rw [tagOf_length, tagOf_length])
  cases c1 with
  | Polygon l1 n1 =>
    cases c2 with
    | Polygon l2 n2 =>
      obtain ⟨hn1, hl1, ht1⟩ := h1
      obtain ⟨hn2, hl2, ht2⟩ := h2
      have hn : n1 = n2 := by
        simp only [tagOf] at htag
        rcases hn1 with e1 | e1 <;> rcases hn2 with e2 | e2 <;> subst e1 <;> subst e2
        · rfl
        · exact absurd htag (by decide)
        · exact absurd htag (by decide)
        · rfl
      rw [payload_polygon l1 n1 hl1, payload_polygon l2 n2 hl2] at hrest
      obtain ⟨hl, hr⟩ := vertices_inj l1 l2 (by omega) ht1 ht2 rest1 rest2 hrest
      exact ⟨by rw [hl, hn], hr⟩
    | TexParam y => simp only [tagOf] at htag; split at htag <;> exact absurd htag (by decide)
    | TexPalette y => simp only [tagOf] at htag; split at htag <;> exact absurd htag (by decide)
    | PolygonAttr y => simp only [tagOf] at htag; split at htag <;> exact absurd htag (by decide)
  | TexParam x =>
    cases c2 with
    | Polygon l2 n2 => simp only [tagOf] at htag; split at htag <;> exact absurd htag (by decide)
    | TexParam y =>
      obtain ⟨hp, hr⟩ := List.append_inj hrest rfl
      exact ⟨by rw [le32_inj x y h1 h2 hp], hr⟩
    | TexPalette y => simp only [tagOf] at htag; exact absurd htag (by decide)
    | PolygonAttr y => simp only [tagOf] at htag; exact absurd htag (by decide)
  | TexPalette x =>
    cases c2 with
    | Polygon l2 n2 => simp only [tagOf] at htag; split at htag <;> exact absurd htag (by decide)
    | TexParam y => simp only [tagOf] at htag; exact absurd htag (by decide)
    | TexPalette y =>
      obtain ⟨hp, hr⟩ := List.append_inj hrest rfl
      exact ⟨by rw [le32_inj x y h1 h2 hp], hr⟩
    | PolygonAttr y => simp only [tagOf] at htag; exact absurd htag (by decide)
  | PolygonAttr x =>
    cases c2 with
    | Polygon l2 n2 => simp only [tagOf] at htag; split at htag <;> exact absurd htag (by decide)
    | TexParam y => simp only [tagOf] at htag; exact absurd htag (by decide)
    | TexPalette y => simp only [tagOf] at htag; exact absurd htag (by decide)
    | PolygonAttr y =>
      obtain ⟨hp, hr⟩ := List.append_inj hrest rfl
      exact ⟨by rw [le32_inj x y h1 h2 hp], hr⟩

theorem records_inj (cmds1 cmds2 : List Command) (s1 s2 : List Nat)
    (hs1 : ∃ r, s1 = tagVRAM ++ r) (hs2 : ∃ r, s2 = tagVRAM ++ r)
    (h1 : ∀ c ∈ cmds1, c.Typed) (h2 : ∀ c ∈ cmds2, c.Typed)
    (h : records cmds1 ++ s1 = records cmds2 ++ s2) : cmds1 = cmds2 ∧ s1 = s2 := by
  induction cmds1 generalizing cmds2 with
  | nil =>
    cases cmds2 with
    | nil => exact ⟨rfl, by simpa [records] using h⟩
    | cons c t =>
      obtain ⟨r, hr⟩ := hs1
      simp only [records, List.map_nil, List.flatten_nil, List.nil_append, List.map_cons,
        List.flatten_cons, record_eq_tag_payload, List.append_assoc] at h
      rw [hr] at h
      exact absurd (List.append_inj h (by rw [tagOf_length]; rfl)).1 (tagOf_ne_VRAM c)
  | cons c1 t1 ih =>
    cases cmds2 with
    | nil =>
      obtain ⟨r, hr⟩ := hs2
      simp only [records, List.map_nil, List.flatten_nil, List.nil_append, List.map_cons,
        List.flatten_cons, record_eq_tag_payload, List.append_assoc] at h
      rw [hr] at h
      exact absurd (List.append_inj h (by rw [tagOf_length]; rfl)).1.symm (tagOf_ne_VRAM c1)
    | cons c2 t2 =>
      have h' : record c1 ++ (records t1 ++ s1) = record c2 ++ (records t2 ++ s2) := by
        simpa [records, List.append_assoc] using h
      obtain ⟨hc, hrest⟩ := command_inj c1 c2 (h1 c1 (List.mem_cons_self _ _))
        (h2 c2 (List.mem_cons_self _ _)) _ _ h'
      obtain ⟨ht, hs⟩ := ih t2 (fun c hc => h1 c (List.mem_cons_of_mem _ hc))
        (fun c hc => h2 c (List.mem_cons_of_mem _ hc)) hrest
      exact ⟨by rw [hc, ht], hs⟩

theorem snapshot_starts (E : Host) : ∃ r, snapshot E = tagVRAM ++ r := by
  simp only [snapshot, vram, List.append_assoc]
  exact ⟨_, rfl⟩

theorem table_succ (n : Nat) (enc : Nat → List Nat) (a : Nat → Nat) :
    table (n + 1) enc a = table n enc a ++ enc (a n) := by
  simp [table, List.range_succ]

theorem table_inj (n k : Nat) (enc : Nat → List Nat) (a b : Nat → Nat)
    (hk : ∀ x, (enc x).length = k)
    (hinj : ∀ i < n, enc (a i) = enc (b i) → a i = b i)
    (h : table n enc a = table n enc b) : ∀ i < n, a i = b i := by
  induction n with
  | zero => intro i hi; omega
  | succ m ih =>
    rw [table_succ, table_succ] at h
    obtain ⟨ht, he⟩ := List.append_inj' h (by rw [hk, hk])
    intro i hi
    by_cases him : i < m
    · exact ih (fun j hj => hinj j (by omega)) ht i him
    · have : i = m := by omega
      subst this
      exact hinj i hi he

theorem bank_inj (n : Nat) (a b : Nat → Nat) (h : bank n a = bank n b) :
    ∀ i < n, a i = b i := by
  unfold bank at h
  intro i hi
  exact (List.map_inj_left.1 h) i (List.mem_range.2 hi)

theorem snapshot_inj (E1 E2 : Host) (h1 : E1.NDS.GPU.Typed) (h2 : E2.NDS.GPU.Typed)
    (h : snapshot E1 = snapshot E2) : GPU.SameCaptured E1.NDS.GPU E2.NDS.GPU := by
  obtain ⟨ta, pa, da, oa⟩ := h1
  obtain ⟨tb, pb, db, ob⟩ := h2
  unfold snapshot at h
  obtain ⟨h, htoon⟩ := List.append_inj' h (by rw [toon_length, toon_length])
  obtain ⟨h, hdisp⟩ := List.append_inj' h (by rw [disp_length, disp_length])
  unfold vram at h
  obtain ⟨h, hG⟩ := List.append_inj' h (by rw [bank_length, bank_length])
  obtain ⟨h, hF⟩ := List.append_inj' h (by rw [bank_length, bank_length])
  obtain ⟨h, hE⟩ := List.append_inj' h (by rw [bank_length, bank_length])
  obtain ⟨h, hD⟩ := List.append_inj' h (by rw [bank_length, bank_length])
  obtain ⟨h, hC⟩ := List.append_inj' h (by rw [bank_length, bank_length])
  obtain ⟨h, hB⟩ := List.append_inj' h (by rw [bank_length, bank_length])
  obtain ⟨h, hA⟩ := List.append_inj' h (by rw [bank_length, bank_length])
  obtain ⟨h, hpal⟩ := List.append_inj' h
    (by rw [table_length _ 4 le32 _ le32_length, table_length _ 4 le32 _ le32_length])
  have htex := List.append_cancel_left h
  unfold disp at hdisp
  unfold toon at htoon
  refine ⟨?_, ?_, bank_inj _ _ _ hA, bank_inj _ _ _ hB, bank_inj _ _ _ hC, bank_inj _ _ _ hD,
    bank_inj _ _ _ hE, bank_inj _ _ _ hF, bank_inj _ _ _ hG, ?_, ?_⟩
  · exact table_inj 4 4 le32 _ _ le32_length
      (fun i hi he => le32_inj _ _ (ta i hi) (tb i hi) he) htex
  · exact table_inj 8 4 le32 _ _ le32_length
      (fun i hi he => le32_inj _ _ (pa i hi) (pb i hi) he) hpal
  · exact le32_inj _ _ da db (List.append_cancel_left hdisp)
  · exact table_inj 32 2 le16 _ _ le16_length
      (fun i hi he => le16_inj _ _ (oa i hi) (ob i hi) he) (List.append_cancel_left htoon)

/-- C15: the artifact encoding is injective.  For all lists of commands
(polygons made of exactly 3 or 4 vertices, `TexParam`, `TexPalette` and
`PolygonAttr` words) and all environments, with values of the declared widths,
if header, records and snapshot of the one equal header, records and snapshot of
the other, then the two lists of commands are equal (same commands, same order,
same field values) and the two environments agree on every captured field
(mapping entries, contents of the banks A to G, display-control word, 32 toon
entries). -/
theorem artifact_injective (cmds1 cmds2 : List Command) (E1 E2 : Host)
    (h1 : ∀ c ∈ cmds1, c.Typed) (h2 : ∀ c ∈ cmds2, c.Typed)
    (hE1 : E1.NDS.GPU.Typed) (hE2 : E2.NDS.GPU.Typed)
    (h : header ++ records cmds1 ++ snapshot E1 = header ++ records cmds2 ++ snapshot E2) :
    cmds1 = cmds2 ∧ GPU.SameCaptured E1.NDS.GPU E2.NDS.GPU := by
  rw [List.append_assoc, List.append_assoc] at h
  obtain ⟨hc, hs⟩ := records_inj cmds1 cmds2 _ _ (snapshot_starts E1) (snapshot_starts E2)
    h1 h2 (List.append_cancel_left h)
  exact ⟨hc, snapshot_inj E1 E2 hE1 hE2 hs⟩

/-- Witness of C15: the artifacts of `cmdsA` on `hostA` and on `hostC`, which
differs from `hostA` only in the outcome of `fopen`. -/
theorem artifact_injective_witness :
    ((∀ c ∈ cmdsA, c.Typed) ∧ hostA.NDS.GPU.Typed ∧ hostC.NDS.GPU.Typed
        ∧ header ++ records cmdsA ++ snapshot hostA = header ++ records cmdsA ++ snapshot hostC)
      ∧ GPU.SameCaptured hostA.NDS.GPU hostC.NDS.GPU :=
  ⟨⟨by decide, by decide, by decide, rfl⟩,
   (artifact_injective cmdsA cmdsA hostA hostC (by decide) (by decide) (by decide)
      (by decide) rfl).2⟩

/-- Witness of C14 on the run `opsC`, which crosses boundaries while idle and
while recording and hands one artifact over. -/
theorem artifacts_well_formed_witness :
    (handovers fresh opsC).length = 1
      ∧ ∀ p ∈ handovers fresh opsC, p.2.take 24 = header
          ∧ p.2.drop (p.2.length - 622720) = snapshot p.1 :=
  ⟨by decide, fun p hp =>
    match (artifacts_well_formed opsC).2 p hp with
    | ⟨_, _, _, _, ht, hd, _⟩ => ⟨ht, hd⟩⟩

end MelonRipper

end melonDS
